import Mathlib

/-!
Shallow embedding of the core of GlycoSpectrumAnnotator
(`src/glycospectrum/glycan_library.py` and the oxonium matching loop of
`src/app.py`) together with proofs about the claims of its specification.

Python floats are modelled as exact rationals (`ℚ`), Python dicts as
insertion-ordered association lists (`List (String × α)`) where assignment
updates an existing key in place and otherwise appends at the end, exactly
as CPython dicts behave.
-/

namespace GlycoSpec

/-- Python dict assignment `d[k] = v`: replace the value at the first
occurrence of `k`, keeping its position, else append `(k, v)` at the end. -/
def dUpdate {α : Type} : List (String × α) → String → α → List (String × α)
  | [], k, v => [(k, v)]
  | (k', v') :: rest, k, v =>
    if k' = k then (k, v) :: rest else (k', v') :: dUpdate rest k v

/-- Python dict lookup `d.get(k)`: value at the first pair whose key is `k`. -/
def dGet? {α : Type} (d : List (String × α)) (k : String) : Option α :=
  (d.find? (fun p => p.1 == k)).map (·.2)

/-- Python dict lookup with default, `d.get(k, v₀)`. -/
def dGetD {α : Type} (d : List (String × α)) (k : String) (v₀ : α) : α :=
  (dGet? d k).getD v₀

/-- Keys of the dict, in insertion order. -/
def dKeys {α : Type} (d : List (String × α)) : List String :=
  d.map (·.1)

/-! ### Monosaccharide mass table (`MONOSACCHARIDE_MASSES`) -/

def MONOSACCHARIDE_MASSES : List (String × ℚ) :=
  [("Hex", 162.0528), ("Man", 162.0528), ("Glc", 162.0528), ("Gal", 162.0528),
   ("HexNAc", 203.0794), ("GlcNAc", 203.0794), ("GalNAc", 203.0794),
   ("Fuc", 146.0579), ("dHex", 146.0579),
   ("NeuAc", 291.0954), ("Sia", 291.0954), ("NeuGc", 307.0903),
   ("Xyl", 132.0423), ("Pent", 132.0423), ("HexA", 176.0321), ("GlcA", 176.0321),
   ("Kdn", 250.0689), ("Sulfate", 79.9568), ("Phosphate", 79.9663)]

/-- Lookup in the monosaccharide table, `MONOSACCHARIDE_MASSES.get(m)`. -/
def monoMass? (m : String) : Option ℚ :=
  dGet? MONOSACCHARIDE_MASSES m

/-- Total lookup used where the source indexes the table directly
(`MONOSACCHARIDE_MASSES[m]`); in the source those accesses happen only at
keys known to be present. -/
def monoMassD (m : String) : ℚ :=
  (monoMass? m).getD 0

/-! ### Composition-string tokenizer

`re.finditer(r'([A-Za-z]+)(\d+)', s)`: a match starts at an ASCII letter,
takes the maximal letter run, and succeeds exactly when that run is
immediately followed by at least one digit (backtracking inside the letter
run cannot help, since every shorter letter run is followed by a letter);
the digit run is then taken maximally and scanning resumes after it. -/

def charsToNat (ds : List Char) : ℕ :=
  ds.foldl (fun a c => 10 * a + (c.toNat - 48)) 0

def scanTokensAux : ℕ → List Char → List (String × ℕ)
  | 0, _ => []
  | _ + 1, [] => []
  | fuel + 1, c :: cs =>
    if c.isAlpha then
      let letters := (c :: cs).takeWhile Char.isAlpha
      let rest := (c :: cs).dropWhile Char.isAlpha
      let ds := rest.takeWhile Char.isDigit
      if ds.isEmpty then scanTokensAux fuel rest
      else (String.mk letters, charsToNat ds) :: scanTokensAux fuel (rest.dropWhile Char.isDigit)
    else scanTokensAux fuel cs

/-- Scan of `re.finditer` with enough fuel for the whole string: every
recursive call of `scanTokensAux` consumes at least one character, so
`l.length` steps always complete the scan. -/
def scanTokens (l : List Char) : List (String × ℕ) :=
  scanTokensAux l.length l

/-! ### `GlycanComposition` and `GlycanComposition.from_string` -/

structure GlycanComposition where
  name : String
  composition : List (String × ℕ)
  mass : ℚ
  glycan_type : String
deriving DecidableEq

/-- The `composition` dict built by the parse loop: known symbols are
assigned into the dict in token order, unknown symbols are dropped. -/
def buildComposition (toks : List (String × ℕ)) : List (String × ℕ) :=
  toks.foldl (fun d t => if (monoMass? t.1).isSome then dUpdate d t.1 t.2 else d) []

/-- `sum(MONOSACCHARIDE_MASSES[mono] * count for mono, count in composition.items())`. -/
def compositionMass (comp : List (String × ℕ)) : ℚ :=
  comp.foldl (fun a p => a + monoMassD p.1 * p.2) 0

def GlycanComposition.from_string (comp_string : String) (name : String)
    (glycan_type : String) : GlycanComposition :=
  let comp := buildComposition (scanTokens comp_string.data)
  { name := if name = "" then comp_string else name
    composition := comp
    mass := compositionMass comp
    glycan_type := glycan_type }

/-! ### Reference glycan libraries -/

def O_GLYCAN_COMPOSITIONS : List (String × GlycanComposition) :=
  [("O-GlcNAc", ⟨"O-GlcNAc", [("HexNAc", 1)], 203.0794, "O-GlcNAc"⟩),
   ("O-GalNAc", ⟨"O-GalNAc", [("HexNAc", 1)], 203.0794, "O-GalNAc"⟩),
   ("Tn", ⟨"Tn", [("HexNAc", 1)], 203.0794, "O-glycan"⟩),
   ("Core1", ⟨"Core1", [("HexNAc", 1), ("Hex", 1)], 365.1322, "O-glycan"⟩),
   ("T-antigen", ⟨"T-antigen", [("HexNAc", 1), ("Hex", 1)], 365.1322, "O-glycan"⟩),
   ("Core2", ⟨"Core2", [("HexNAc", 2), ("Hex", 1)], 568.2116, "O-glycan"⟩),
   ("Core3", ⟨"Core3", [("HexNAc", 2)], 406.1588, "O-glycan"⟩),
   ("Core4", ⟨"Core4", [("HexNAc", 3)], 609.2382, "O-glycan"⟩),
   ("HexNAc1NeuAc1", ⟨"Sialyl-Tn", [("HexNAc", 1), ("NeuAc", 1)], 494.1748, "O-glycan"⟩),
   ("Sialyl-Tn", ⟨"Sialyl-Tn", [("HexNAc", 1), ("NeuAc", 1)], 494.1748, "O-glycan"⟩),
   ("HexNAc1Hex1NeuAc1",
    ⟨"Sialyl-T", [("HexNAc", 1), ("Hex", 1), ("NeuAc", 1)], 656.2276, "O-glycan"⟩),
   ("Sialyl-T", ⟨"Sialyl-T", [("HexNAc", 1), ("Hex", 1), ("NeuAc", 1)], 656.2276, "O-glycan"⟩),
   ("Sialyl-Core1",
    ⟨"Sialyl-Core1", [("HexNAc", 1), ("Hex", 1), ("NeuAc", 1)], 656.2276, "O-glycan"⟩),
   ("HexNAc2Hex2", ⟨"HexNAc2Hex2", [("HexNAc", 2), ("Hex", 2)], 730.2644, "O-glycan"⟩),
   ("HexNAc2Hex1NeuAc1",
    ⟨"HexNAc2Hex1NeuAc1", [("HexNAc", 2), ("Hex", 1), ("NeuAc", 1)], 859.3070, "O-glycan"⟩),
   ("HexNAc1Hex1NeuAc2",
    ⟨"Disialyl-T", [("HexNAc", 1), ("Hex", 1), ("NeuAc", 2)], 947.3230, "O-glycan"⟩),
   ("Disialyl-T", ⟨"Disialyl-T", [("HexNAc", 1), ("Hex", 1), ("NeuAc", 2)], 947.3230, "O-glycan"⟩),
   ("HexNAc2Hex2NeuAc1",
    ⟨"HexNAc2Hex2NeuAc1", [("HexNAc", 2), ("Hex", 2), ("NeuAc", 1)], 1021.3598, "O-glycan"⟩),
   ("HexNAc2Hex2Fuc1NeuAc1",
    ⟨"HexNAc2Hex2Fuc1NeuAc1", [("HexNAc", 2), ("Hex", 2), ("Fuc", 1), ("NeuAc", 1)],
     1167.4177, "O-glycan"⟩),
   ("HexNAc2Hex2NeuAc2",
    ⟨"HexNAc2Hex2NeuAc2", [("HexNAc", 2), ("Hex", 2), ("NeuAc", 2)], 1312.4552, "O-glycan"⟩),
   ("HexNAc2Hex2Fuc1NeuAc2",
    ⟨"HexNAc2Hex2Fuc1NeuAc2", [("HexNAc", 2), ("Hex", 2), ("Fuc", 1), ("NeuAc", 2)],
     1458.5131, "O-glycan"⟩),
   ("HexNAc1NeuGc1", ⟨"HexNAc1NeuGc1", [("HexNAc", 1), ("NeuGc", 1)], 510.1697, "O-glycan"⟩),
   ("HexNAc1Hex1NeuGc1",
    ⟨"HexNAc1Hex1NeuGc1", [("HexNAc", 1), ("Hex", 1), ("NeuGc", 1)], 672.2225, "O-glycan"⟩),
   ("HexNAc1-Phosphate",
    ⟨"HexNAc1-Phosphate", [("HexNAc", 1), ("Phosphate", 1)], 283.0457, "O-glycan"⟩),
   ("HexNAc1Hex1-Phosphate",
    ⟨"HexNAc1Hex1-Phosphate", [("HexNAc", 1), ("Hex", 1), ("Phosphate", 1)],
     445.0985, "O-glycan"⟩),
   ("HexNAc1-Sulfate",
    ⟨"HexNAc1-Sulfate", [("HexNAc", 1), ("Sulfate", 1)], 283.0362, "O-glycan"⟩),
   ("HexNAc1Hex1-Sulfate",
    ⟨"HexNAc1Hex1-Sulfate", [("HexNAc", 1), ("Hex", 1), ("Sulfate", 1)], 445.0890, "O-glycan"⟩),
   ("HexNAc2Hex2-Sulfate",
    ⟨"HexNAc2Hex2-Sulfate", [("HexNAc", 2), ("Hex", 2), ("Sulfate", 1)], 810.2212, "O-glycan"⟩)]

def N_GLYCAN_COMPOSITIONS : List (String × GlycanComposition) :=
  [("Core", ⟨"N-glycan Core", [("HexNAc", 2), ("Hex", 3)], 892.3170, "N-glycan"⟩),
   ("Man5", ⟨"Man5", [("HexNAc", 2), ("Hex", 5)], 1216.4226, "N-glycan"⟩),
   ("Man6", ⟨"Man6", [("HexNAc", 2), ("Hex", 6)], 1378.4754, "N-glycan"⟩),
   ("Man7", ⟨"Man7", [("HexNAc", 2), ("Hex", 7)], 1540.5282, "N-glycan"⟩),
   ("Man8", ⟨"Man8", [("HexNAc", 2), ("Hex", 8)], 1702.5810, "N-glycan"⟩),
   ("Man9", ⟨"Man9", [("HexNAc", 2), ("Hex", 9)], 1864.6338, "N-glycan"⟩),
   ("A2", ⟨"A2", [("HexNAc", 4), ("Hex", 5)], 1622.5814, "N-glycan"⟩),
   ("A2F", ⟨"A2F", [("HexNAc", 4), ("Hex", 5), ("Fuc", 1)], 1768.6393, "N-glycan"⟩),
   ("A2G2", ⟨"A2G2", [("HexNAc", 4), ("Hex", 5)], 1622.5814, "N-glycan"⟩),
   ("A2G2F", ⟨"A2G2F", [("HexNAc", 4), ("Hex", 5), ("Fuc", 1)], 1768.6393, "N-glycan"⟩),
   ("A2G2S1", ⟨"A2G2S1", [("HexNAc", 4), ("Hex", 5), ("NeuAc", 1)], 1913.6768, "N-glycan"⟩),
   ("A2G2S2", ⟨"A2G2S2", [("HexNAc", 4), ("Hex", 5), ("NeuAc", 2)], 2204.7722, "N-glycan"⟩),
   ("A2G2FS1",
    ⟨"A2G2FS1", [("HexNAc", 4), ("Hex", 5), ("Fuc", 1), ("NeuAc", 1)], 2059.7347, "N-glycan"⟩),
   ("A2G2FS2",
    ⟨"A2G2FS2", [("HexNAc", 4), ("Hex", 5), ("Fuc", 1), ("NeuAc", 2)], 2350.8301, "N-glycan"⟩)]

/-! ### Y ion series generation -/

/-- Python `name.endswith('-H2O')`. -/
def endsWithH2O (k : String) : Bool :=
  "-H2O".data.isSuffixOf k.data

/-- Suffix test for the `-NH3` neutral-loss tag. -/
def endsWithNH3 (k : String) : Bool :=
  "-NH3".data.isSuffixOf k.data

/-- The water-loss pass at the end of the complex branch of
`generate_y_ion_series`: iterate over a snapshot of the dict and add a
`-H2O` variant for every name that does not already end in `-H2O`. -/
def waterLossPass (snapshot d : List (String × ℚ)) : List (String × ℚ) :=
  snapshot.foldl
    (fun acc p => if endsWithH2O p.1 then acc else dUpdate acc (p.1 ++ "-H2O") (p.2 - 18.0106)) d

/-- Body of the ladder loop (`for i in range(1, total_mono + 1)`) of the
complex branch of `generate_y_ion_series`. -/
def yLadderStep (glycan_type : String) (comp : List (String × ℕ)) (peptide_mass : ℚ)
    (acc : List (String × ℚ)) (i : ℕ) : List (String × ℚ) :=
  let acc := if i = 1 ∧ (dGet? comp "HexNAc").isSome then
      dUpdate acc "Y1" (peptide_mass + monoMassD "HexNAc")
    else acc
  let acc := if i = 2 ∧ 2 ≤ dGetD comp "HexNAc" 0 then
      dUpdate acc "Y2" (peptide_mass + 2 * monoMassD "HexNAc")
    else acc
  if glycan_type = "N-glycan" then
    if 2 ≤ dGetD comp "HexNAc" 0 ∧ 3 ≤ dGetD comp "Hex" 0 then
      let core_mass := 2 * monoMassD "HexNAc" + 3 * monoMassD "Hex"
      let acc := dUpdate acc "Y(core)" (peptide_mass + core_mass)
      if 1 ≤ dGetD comp "Fuc" 0 then
        dUpdate acc "Y(core+F)" (peptide_mass + core_mass + monoMassD "Fuc")
      else acc
    else acc
  else acc

def generate_y_ion_series (glycan : GlycanComposition) (peptide_mass : ℚ)
    (include_water_loss : Bool) (tmt_on_glycan : Bool) (tmt_mass : ℚ) : List (String × ℚ) :=
  let glycan_mass := if tmt_on_glycan then glycan.mass + tmt_mass else glycan.mass
  let d := dUpdate [] "Y0" peptide_mass
  let d := if include_water_loss then dUpdate d "Y0-H2O" (peptide_mass - 18.0106) else d
  if glycan.glycan_type = "O-GlcNAc" ∨ glycan.glycan_type = "O-GalNAc" then
    let d := dUpdate d "Y1" (peptide_mass + glycan_mass)
    if include_water_loss then
      dUpdate d "Y1-H2O" (peptide_mass + glycan_mass - 18.0106)
    else d
  else
    let comp := glycan.composition
    let total_mono := (comp.map (·.2)).sum
    let d := (List.range' 1 total_mono).foldl
      (yLadderStep glycan.glycan_type comp peptide_mass) d
    let d := dUpdate d "Y(intact)" (peptide_mass + glycan_mass)
    if include_water_loss then waterLossPass d d else d

/-- Python `'core' in name or 'bi' in name` (substring containment). -/
def hasCoreOrBi (k : String) : Bool :=
  decide ("core".data <:+: k.data) || decide ("bi".data <:+: k.data)

/-- Python `'S' in name` (single-character substring containment). -/
def hasSChar (k : String) : Bool :=
  k.data.contains 'S'

/-- First sialylation pass of `generate_n_glycan_y_ions`: add `{name}S1`
for every snapshot entry whose name contains `core` or `bi`. -/
def sialPass1 (neuac_mass : ℚ) (snapshot d : List (String × ℚ)) : List (String × ℚ) :=
  snapshot.foldl
    (fun acc p => if hasCoreOrBi p.1 then dUpdate acc (p.1 ++ "S1") (p.2 + neuac_mass) else acc) d

/-- Second sialylation pass: add `{name}S2` for every snapshot entry whose
name contains `core` or `bi` and does not contain `S`. -/
def sialPass2 (neuac_mass : ℚ) (snapshot d : List (String × ℚ)) : List (String × ℚ) :=
  snapshot.foldl
    (fun acc p =>
      if hasCoreOrBi p.1 ∧ ¬hasSChar p.1 then
        dUpdate acc (p.1 ++ "S2") (p.2 + 2 * neuac_mass)
      else acc) d

def generate_n_glycan_y_ions (glycan_composition : List (String × ℕ)) (peptide_mass : ℚ)
    (include_fucose_variants : Bool) : List (String × ℚ) :=
  let n_hexnac := dGetD glycan_composition "HexNAc" 0
  let n_hex := dGetD glycan_composition "Hex" 0
  let n_fuc := dGetD glycan_composition "Fuc" 0
  let n_neuac := dGetD glycan_composition "NeuAc" 0
  let hex_mass := monoMassD "Hex"
  let hexnac_mass := monoMassD "HexNAc"
  let fuc_mass := monoMassD "Fuc"
  let neuac_mass := monoMassD "NeuAc"
  let d := dUpdate [] "Y0" peptide_mass
  let d := if 1 ≤ n_hexnac then
      let d := dUpdate d "Y1" (peptide_mass + hexnac_mass)
      if 1 ≤ n_fuc ∧ include_fucose_variants then
        dUpdate d "Y1F" (peptide_mass + hexnac_mass + fuc_mass)
      else d
    else d
  let d := if 2 ≤ n_hexnac then
      let d := dUpdate d "Y2" (peptide_mass + 2 * hexnac_mass)
      if 1 ≤ n_fuc ∧ include_fucose_variants then
        dUpdate d "Y2F" (peptide_mass + 2 * hexnac_mass + fuc_mass)
      else d
    else d
  let d := if 2 ≤ n_hexnac ∧ 1 ≤ n_hex then
      let d := dUpdate d "Y3" (peptide_mass + 2 * hexnac_mass + hex_mass)
      if 1 ≤ n_fuc ∧ include_fucose_variants then
        dUpdate d "Y3F" (peptide_mass + 2 * hexnac_mass + hex_mass + fuc_mass)
      else d
    else d
  let d := if 2 ≤ n_hexnac ∧ 2 ≤ n_hex then
      let d := dUpdate d "Y4" (peptide_mass + 2 * hexnac_mass + 2 * hex_mass)
      if 1 ≤ n_fuc ∧ include_fucose_variants then
        dUpdate d "Y4F" (peptide_mass + 2 * hexnac_mass + 2 * hex_mass + fuc_mass)
      else d
    else d
  let d := if 2 ≤ n_hexnac ∧ 3 ≤ n_hex then
      let core_mass := 2 * hexnac_mass + 3 * hex_mass
      let d := dUpdate d "Y(core)" (peptide_mass + core_mass)
      if 1 ≤ n_fuc ∧ include_fucose_variants then
        dUpdate d "Y(core)F" (peptide_mass + core_mass + fuc_mass)
      else d
    else d
  let d := if 3 ≤ n_hexnac ∧ 3 ≤ n_hex then
      let d := dUpdate d "Y(core+1arm)" (peptide_mass + 3 * hexnac_mass + 4 * hex_mass)
      if 1 ≤ n_fuc ∧ include_fucose_variants then
        dUpdate d "Y(core+1arm)F" (peptide_mass + 3 * hexnac_mass + 4 * hex_mass + fuc_mass)
      else d
    else d
  let d := if 4 ≤ n_hexnac ∧ 5 ≤ n_hex then
      let d := dUpdate d "Y(bi)" (peptide_mass + 4 * hexnac_mass + 5 * hex_mass)
      if 1 ≤ n_fuc ∧ include_fucose_variants then
        dUpdate d "Y(bi)F" (peptide_mass + 4 * hexnac_mass + 5 * hex_mass + fuc_mass)
      else d
    else d
  let d := if 1 ≤ n_neuac then
      let d := sialPass1 neuac_mass d d
      if 2 ≤ n_neuac then sialPass2 neuac_mass d d else d
    else d
  dUpdate d "Y(intact)"
    (peptide_mass + (n_hexnac * hexnac_mass + n_hex * hex_mass +
      n_fuc * fuc_mass + n_neuac * neuac_mass))

/-! ### Glycan identification from mass -/

/-- One library scan of `identify_glycan_from_mass`: keep entries within
`tolerance_da` of the query mass, tagged with their absolute error, in
table iteration order. -/
def glycanMatchesIn (lib : List (String × GlycanComposition)) (mass tolerance_da : ℚ) :
    List (String × GlycanComposition × ℚ) :=
  lib.filterMap
    (fun p => if |mass - p.2.mass| ≤ tolerance_da then some (p.1, p.2, |mass - p.2.mass|) else none)

def identify_glycan_from_mass (mass tolerance_da : ℚ) (glycan_type : String) :
    List (String × GlycanComposition × ℚ) :=
  let m1 := if glycan_type = "O-glycan" ∨ glycan_type = "all" then
      glycanMatchesIn O_GLYCAN_COMPOSITIONS mass tolerance_da
    else []
  let m2 := if glycan_type = "N-glycan" ∨ glycan_type = "all" then
      glycanMatchesIn N_GLYCAN_COMPOSITIONS mass tolerance_da
    else []
  (m1 ++ m2).mergeSort (fun a b => a.2.2 ≤ b.2.2)

/-! ### Crosslinker support -/

structure Crosslinker where
  name : String
  formula : String
  intact_mass : ℚ
  spacer_length : ℚ
  cleavable : Bool
  reactive_groups : String
  stub_masses : List (String × ℚ)
  diagnostic_ions : List (String × ℚ)
deriving DecidableEq

def DSSO : Crosslinker :=
  { name := "DSSO", formula := "C14H18N2O9S", intact_mass := 158.0038, spacer_length := 10.1,
    cleavable := true, reactive_groups := "NHS",
    stub_masses := [("alkene", 54.0106), ("thiol", 85.9826), ("sulfenic", 103.9932)],
    diagnostic_ions :=
      [("A-T_diff", 31.9720), ("reporter_104", 104.0170), ("reporter_122", 122.0276)] }

def DSBSO : Crosslinker :=
  { name := "DSBSO", formula := "C11H16N2O6S2", intact_mass := 308.0388, spacer_length := 12.5,
    cleavable := true, reactive_groups := "NHS",
    stub_masses := [("alkene", 54.0106), ("thiol", 85.9826), ("sulfenic", 103.9932),
      ("ETHMP", 226.0144)],
    diagnostic_ions := [("A-T_diff", 31.9720), ("D12_ETHMP_alkene_diff", 226.01)] }

def BS3 : Crosslinker :=
  { name := "BS3", formula := "C16H18N2O14S2", intact_mass := 138.0681, spacer_length := 11.4,
    cleavable := false, reactive_groups := "NHS", stub_masses := [], diagnostic_ions := [] }

def DSS : Crosslinker :=
  { name := "DSS", formula := "C16H20N2O8", intact_mass := 138.0681, spacer_length := 11.4,
    cleavable := false, reactive_groups := "NHS", stub_masses := [], diagnostic_ions := [] }

def CROSSLINKERS : List (String × Crosslinker) :=
  [("DSSO", DSSO), ("DSBSO", DSBSO), ("BS3", BS3), ("DSS", DSS)]

/-! ### Crosslinked peptide fragmentation -/

def PROTON : ℚ := 1.007276
def H2O : ℚ := 18.0106
def NH3 : ℚ := 17.0265

structure CrosslinkFragments where
  peptide1 : List (String × ℚ)
  peptide2 : List (String × ℚ)
  diagnostic : List (String × ℚ)
  precursor : List (String × ℚ)
deriving DecidableEq

/-- Python `'+' in name` (single-character substring containment). -/
def hasPlusChar (k : String) : Bool :=
  k.data.contains '+'

/-- One iteration of the charge loop of `generate_crosslink_fragments`:
iterate over a snapshot of the dict, adding `{name}+{charge}` with
m/z `(mass + charge·proton)/charge` for every snapshot entry. -/
def chargeStep (charge : ℕ) (d : List (String × ℚ)) : List (String × ℚ) :=
  d.foldl
    (fun acc p =>
      dUpdate acc (p.1 ++ "+" ++ Nat.repr charge) ((p.2 + charge * PROTON) / charge)) d

/-- The neutral-loss pass of `generate_crosslink_fragments`: for every
snapshot entry whose name has no `+`, add `-H2O` and `-NH3` variants. -/
def lossPass (d : List (String × ℚ)) : List (String × ℚ) :=
  d.foldl
    (fun acc p =>
      if hasPlusChar p.1 then acc
      else dUpdate (dUpdate acc (p.1 ++ "-H2O") (p.2 - H2O)) (p.1 ++ "-NH3") (p.2 - NH3)) d

def generate_crosslink_fragments (peptide1_mass peptide2_mass : ℚ) (crosslinker : Crosslinker)
    (precursor_charge : ℕ) (include_neutral_losses : Bool) : CrosslinkFragments :=
  if crosslinker.cleavable then
    let alkene := dGetD crosslinker.stub_masses "alkene" 0
    let thiol := dGetD crosslinker.stub_masses "thiol" 0
    let sulfenic := dGetD crosslinker.stub_masses "sulfenic" 0
    let pep1 := dUpdate (dUpdate (dUpdate [] "α-A" (peptide1_mass + alkene))
      "α-T" (peptide1_mass + thiol)) "α-S" (peptide1_mass + sulfenic)
    let pep2 := dUpdate (dUpdate (dUpdate [] "β-A" (peptide2_mass + alkene))
      "β-T" (peptide2_mass + thiol)) "β-S" (peptide2_mass + sulfenic)
    let charges := List.range' 1 (min precursor_charge 4 - 1)
    let pep1 := charges.foldl (fun d c => chargeStep c d) pep1
    let pep2 := charges.foldl (fun d c => chargeStep c d) pep2
    let pep1 := if include_neutral_losses then lossPass pep1 else pep1
    let pep2 := if include_neutral_losses then lossPass pep2 else pep2
    let diag := crosslinker.diagnostic_ions.foldl (fun d p => dUpdate d p.1 p.2) []
    ⟨pep1, pep2, diag, []⟩
  else
    let intact_mass := peptide1_mass + peptide2_mass + crosslinker.intact_mass
    let prec := dUpdate [] "intact" intact_mass
    let prec := (List.range' 1 precursor_charge).foldl
      (fun d c => dUpdate d ("intact+" ++ Nat.repr c) ((intact_mass + c * PROTON) / c)) prec
    ⟨[], [], [], prec⟩

def identify_crosslink_stubs (observed_masses : List ℚ) (peptide_mass : ℚ)
    (crosslinker : Crosslinker) (tolerance_da : ℚ) : List (String × ℚ × ℚ) :=
  if crosslinker.cleavable then
    crosslinker.stub_masses.flatMap
      (fun sp => observed_masses.filterMap
        (fun obs =>
          if |obs - (peptide_mass + sp.2)| ≤ tolerance_da then
            some (sp.1, obs, |obs - (peptide_mass + sp.2)|)
          else none))
  else []

/-! ### False match rate -/

structure FmrResult where
  fmr_peaks : ℚ
  fmr_intensity : ℚ
  note : String
deriving DecidableEq

def calculate_crosslink_fmr (matched_peaks total_peaks : ℤ)
    (matched_intensity total_intensity : ℚ) : FmrResult :=
  { fmr_peaks := if 0 < total_peaks then (matched_peaks : ℚ) / (total_peaks : ℚ) else 0
    fmr_intensity := if 0 < total_intensity then matched_intensity / total_intensity else 0
    note := "Full FMR calculation requires spectrum shifting - implement in annotator" }

/-! ### Oxonium ion library and the matching loop of `app.py` -/

def OXONIUM_IONS_EXTENDED : List (String × ℚ) :=
  [("HexNAc", 204.0867), ("HexNAc-H2O", 186.0761), ("HexNAc-2H2O", 168.0655),
   ("HexNAc-CH2O", 174.0761), ("HexNAc-C2H4O2", 144.0655), ("HexNAc-C2H6O3", 126.0550),
   ("HexNAc_138", 138.0550),
   ("Hex", 163.0601), ("Hex-H2O", 145.0495), ("Hex-2H2O", 127.0390),
   ("NeuAc", 292.1027), ("NeuAc-H2O", 274.0921), ("NeuAc-2H2O", 256.0816),
   ("NeuAc-CO2", 248.1129), ("NeuAc-CH4O2", 260.0765),
   ("Fuc", 147.0652), ("Fuc-H2O", 129.0546),
   ("HexNAc-Hex", 366.1395), ("HexNAc-Hex-H2O", 348.1289), ("HexNAc-HexNAc", 407.1660),
   ("Hex-Hex", 325.1129), ("HexNAc-NeuAc", 495.1821), ("Hex-NeuAc", 454.1556),
   ("HexNAc-Hex-NeuAc", 657.2349), ("HexNAc-Hex-Hex", 528.1923),
   ("HexNAc-TMT", 529.2937), ("HexNAc-H2O-TMT", 511.2831)]

/-- The in-tolerance test of the oxonium matching loop of `app.py`
(`abs(error_ppm) < tolerance` in ppm mode, `abs(mz - ion_mz) < tolerance`
in Da mode; both comparisons are strict in the source). -/
def peakInTolerance (ion_mz tolerance : ℚ) (ppm_mode : Bool) (mz : ℚ) : Bool :=
  if ppm_mode then |(mz - ion_mz) / ion_mz * 1000000| < tolerance
  else |mz - ion_mz| < tolerance

/-- The oxonium matching loop of `app.py` for one theoretical ion: scan the
observed peaks in order and record the FIRST peak within tolerance
(the loop `break`s on the first hit). -/
def oxoniumFirstMatch (ion_mz tolerance : ℚ) (ppm_mode : Bool) (peaks : List (ℚ × ℚ)) :
    Option ℚ :=
  (peaks.find? (fun p => peakInTolerance ion_mz tolerance ppm_mode p.1)).map (·.1)

/-- Modelled from the spec: the nearest-peak selection policy of §4.3 -
among the observed peaks within tolerance, select the one with the
smallest absolute error to the theoretical ion. -/
def oxoniumNearestMatch (ion_mz tolerance : ℚ) (ppm_mode : Bool) (peaks : List (ℚ × ℚ)) :
    Option ℚ :=
  ((peaks.filter (fun p => peakInTolerance ion_mz tolerance ppm_mode p.1)).map (·.1)).argmin
    (fun mz => |mz - ion_mz|)

/-! ### Lemmas about the dict model -/

theorem dGet?_nil {α : Type} (k : String) : dGet? ([] : List (String × α)) k = none := rfl

theorem dGet?_cons {α : Type} (k' : String) (v' : α) (rest : List (String × α)) (k : String) :
    dGet? ((k', v') :: rest) k = if k' = k then some v' else dGet? rest k := by
  unfold dGet?
  cases hb : (k' == k) with
  | false =>
    have hne : k' ≠ k := by simpa using hb
    simp [List.find?, hb, hne]
  | true =>
    have heq : k' = k := by simpa using hb
    simp [List.find?, hb, heq]

theorem dGet?_dUpdate_self {α : Type} (d : List (String × α)) (k : String) (v : α) :
    dGet? (dUpdate d k v) k = some v := by
  induction d with
  | nil => simp [dUpdate, dGet?_cons]
  | cons p rest ih =>
    obtain ⟨k', v'⟩ := p
    by_cases h : k' = k
    · simp [dUpdate, h, dGet?_cons]
    · simp [dUpdate, h, dGet?_cons, ih]

theorem dGet?_dUpdate_ne {α : Type} (d : List (String × α)) (k' : String) (v : α)
    (k : String) (h : k' ≠ k) : dGet? (dUpdate d k' v) k = dGet? d k := by
  induction d with
  | nil => simp [dUpdate, dGet?_cons, h, dGet?_nil]
  | cons p rest ih =>
    obtain ⟨k₀, v₀⟩ := p
    by_cases hp : k₀ = k'
    · subst hp
      simp [dUpdate, dGet?_cons, h]
    · simp [dUpdate, hp, dGet?_cons, ih]

theorem mem_of_dGet?_eq_some {α : Type} {d : List (String × α)} {k : String} {v : α}
    (h : dGet? d k = some v) : (k, v) ∈ d := by
  induction d with
  | nil => simp [dGet?_nil] at h
  | cons p rest ih =>
    obtain ⟨k', v'⟩ := p
    rw [dGet?_cons] at h
    by_cases hk : k' = k
    · rw [if_pos hk] at h
      obtain rfl := hk
      obtain rfl : v' = v := by simpa using h
      exact List.mem_cons_self _ _
    · rw [if_neg hk] at h
      exact List.mem_cons_of_mem _ (ih h)

theorem dKeys_dUpdate_subset {α : Type} (d : List (String × α)) (k : String) (v : α) :
    ∀ x ∈ dKeys (dUpdate d k v), x = k ∨ x ∈ dKeys d := by
  induction d with
  | nil => simp [dUpdate, dKeys]
  | cons p rest ih =>
    obtain ⟨k', v'⟩ := p
    intro x hx
    by_cases h : k' = k
    · simp only [dUpdate, h, if_true, dKeys, List.map_cons, List.mem_cons] at hx
      rcases hx with hx | hx
      · exact Or.inl hx
      · exact Or.inr (by simp only [dKeys, List.map_cons, List.mem_cons]; exact Or.inr hx)
    · simp only [dUpdate, h, if_false, dKeys, List.map_cons, List.mem_cons] at hx
      rcases hx with hx | hx
      · exact Or.inr (by simp [dKeys, hx])
      · rcases ih x hx with h1 | h1
        · exact Or.inl h1
        · exact Or.inr (by simp only [dKeys, List.map_cons, List.mem_cons]; exact Or.inr h1)

theorem nodup_dKeys_dUpdate {α : Type} (d : List (String × α)) (k : String) (v : α)
    (h : (dKeys d).Nodup) : (dKeys (dUpdate d k v)).Nodup := by
  induction d with
  | nil => simp [dUpdate, dKeys]
  | cons p rest ih =>
    obtain ⟨k', v'⟩ := p
    simp only [dKeys, List.map_cons, List.nodup_cons] at h
    by_cases hp : k' = k
    · simp only [dUpdate, hp, if_true, dKeys, List.map_cons, List.nodup_cons]
      exact ⟨by simpa [hp] using h.1, h.2⟩
    · simp only [dUpdate, hp, if_false, dKeys, List.map_cons, List.nodup_cons]
      refine ⟨fun hc => ?_, ih h.2⟩
      rcases dKeys_dUpdate_subset rest k v _ hc with h1 | h1
      · exact hp h1
      · exact h.1 h1

theorem dGet?_foldl_preserve {α β : Type} (step : List (String × α) → β → List (String × α))
    (k : String) (l : List β)
    (h : ∀ acc x, x ∈ l → dGet? (step acc x) k = dGet? acc k) :
    ∀ d, dGet? (l.foldl step d) k = dGet? d k := by
  induction l with
  | nil => intro d; rfl
  | cons x xs ih =>
    intro d
    rw [List.foldl_cons, ih (fun acc y hy => h acc y (List.mem_cons_of_mem _ hy))]
    exact h d x (List.mem_cons_self _ _)


attribute [local semireducible] Rat.ofScientific Rat.add Rat.mul Rat.sub Rat.inv

theorem mem_dUpdate {α : Type} {d : List (String × α)} {k : String} {v : α} {p : String × α}
    (h : p ∈ dUpdate d k v) : p = (k, v) ∨ p ∈ d := by
  induction d with
  | nil => simpa [dUpdate] using h
  | cons q rest ih =>
    obtain ⟨k', v'⟩ := q
    by_cases hk : k' = k
    · simp only [dUpdate, hk, if_true, List.mem_cons] at h
      rcases h with h | h
      · exact Or.inl h
      · exact Or.inr (List.mem_cons_of_mem _ h)
    · simp only [dUpdate, hk, if_false, List.mem_cons] at h
      rcases h with h | h
      · exact Or.inr (by simp [h])
      · rcases ih h with h1 | h1
        · exact Or.inl h1
        · exact Or.inr (List.mem_cons_of_mem _ h1)

theorem foldl_induction {α β : Type} (P : α → Prop) (step : α → β → α) (l : List β)
    (h : ∀ acc x, x ∈ l → P acc → P (step acc x)) :
    ∀ d, P d → P (l.foldl step d) := by
  induction l with
  | nil => intro d hd; exact hd
  | cons x xs ih =>
    intro d hd
    exact ih (fun acc y hy => h acc y (List.mem_cons_of_mem _ hy)) _
      (h d x (List.mem_cons_self _ _) hd)

/-! ### Claims about `GlycanComposition.from_string` (C2, C10) -/

theorem buildComposition_known (toks : List (String × ℕ)) :
    ∀ p ∈ buildComposition toks, (monoMass? p.1).isSome = true := by
  refine foldl_induction
    (fun d : List (String × ℕ) => ∀ p ∈ d, (monoMass? p.1).isSome = true) _ toks
    (fun acc t _ hacc => ?_) [] (by simp)
  by_cases ht : (monoMass? t.1).isSome
  · simp only [ht, if_true]
    intro p hp
    rcases mem_dUpdate hp with h | h
    · subst h; exact ht
    · exact hacc p h
  · simpa [ht] using hacc

theorem foldl_add_eq_sum {β : Type} (f : β → ℚ) (l : List β) :
    ∀ a : ℚ, l.foldl (fun a p => a + f p) a = a + (l.map f).sum := by
  induction l with
  | nil => intro a; simp
  | cons x xs ih => intro a; simp [ih, add_assoc]

theorem compositionMass_eq_sum (comp : List (String × ℕ)) :
    compositionMass comp = (comp.map (fun p => monoMassD p.1 * p.2)).sum := by
  unfold compositionMass
  simpa using foldl_add_eq_sum (fun p => monoMassD p.1 * p.2) comp 0

/-- C2: `from_string` keeps only symbols present in the monosaccharide
table (unknown symbols are silently dropped), its mass is the sum of
`count × table mass` over the parsed composition, and on the example
`"HexNAc2Hex5"` it yields `{HexNAc: 2, Hex: 5}` with mass
`2·203.0794 + 5·162.0528` exactly. -/
theorem from_string_known_symbols_and_mass :
    (∀ s name gt : String,
      ((GlycanComposition.from_string s name gt).composition.all
        (fun p : String × ℕ => (monoMass? p.1).isSome)) = true ∧
      (GlycanComposition.from_string s name gt).mass =
        (((GlycanComposition.from_string s name gt).composition.map
          (fun p : String × ℕ => monoMassD p.1 * p.2)).sum)) ∧
    (GlycanComposition.from_string "HexNAc2Hex5" "" "unknown").composition =
      [("HexNAc", 2), ("Hex", 5)] ∧
    (GlycanComposition.from_string "HexNAc2Hex5" "" "unknown").mass =
      2 * 203.0794 + 5 * 162.0528 := by
  refine ⟨fun s name gt => ⟨?_, ?_⟩, by decide, by decide⟩
  · rw [List.all_eq_true]
    exact fun p hp => buildComposition_known _ p hp
  · exact compositionMass_eq_sum _

theorem dGet?_token_foldl (m : String) (toks : List (String × ℕ)) :
    ∀ d, dGet? (toks.foldl
        (fun d t => if (monoMass? t.1).isSome then dUpdate d t.1 t.2 else d) d) m =
      if (monoMass? m).isSome then
        ((((toks.filter (fun t => t.1 == m)).getLast?).map (·.2)).or (dGet? d m))
      else dGet? d m := by
  induction toks with
  | nil =>
    intro d
    by_cases hm : (monoMass? m).isSome <;> simp [hm]
  | cons t ts ih =>
    intro d
    rw [List.foldl_cons, ih, List.filter_cons]
    by_cases htm : t.1 = m
    · subst htm
      simp only [beq_self_eq_true, if_true]
      by_cases hm : (monoMass? t.1).isSome
      · simp only [hm, if_true]
        rcases hlast : (ts.filter (fun t' => t'.1 == t.1)).getLast? with _ | y
        · have hnil : ts.filter (fun t' => t'.1 == t.1) = [] :=
            List.getLast?_eq_none_iff.mp hlast
          simp [hnil, dGet?_dUpdate_self]
        · have hne : ts.filter (fun t' => t'.1 == t.1) ≠ [] := by
            intro hc; rw [hc] at hlast; simp at hlast
          rcases List.exists_cons_of_ne_nil hne with ⟨x, xs, hx⟩
          rw [hx] at hlast
          rw [hx, List.getLast?_cons_cons, hlast]
          simp [Option.or]
      · simp [hm]
    · have hb : (t.1 == m) = false := by simpa using htm
      simp only [hb, Bool.false_eq_true, if_false]
      have hstep : dGet? (if (monoMass? t.1).isSome then dUpdate d t.1 t.2 else d) m
          = dGet? d m := by
        by_cases ht : (monoMass? t.1).isSome
        · simp [ht, dGet?_dUpdate_ne _ _ _ _ htm]
        · simp [ht]
      rw [hstep]

/-- C10: when a composition string repeats a symbol, the parsed
composition keeps the count of the LAST occurrence of that symbol (the
dict assignment overwrites), and the mass reflects only that count; in
particular `"Hex2Hex3"` parses to `{Hex: 3}` with mass `3·162.0528`,
not `5·162.0528`. -/
theorem from_string_repeated_symbol_last_wins :
    (∀ s name gt m : String,
      dGet? (GlycanComposition.from_string s name gt).composition m =
        if (monoMass? m).isSome then
          (((scanTokens s.data).filter (fun t => t.1 == m)).getLast?).map (·.2)
        else none) ∧
    (GlycanComposition.from_string "Hex2Hex3" "" "unknown").composition = [("Hex", 3)] ∧
    (GlycanComposition.from_string "Hex2Hex3" "" "unknown").mass = 3 * 162.0528 ∧
    (GlycanComposition.from_string "Hex2Hex3" "" "unknown").mass ≠ 5 * 162.0528 := by
  refine ⟨fun s name gt m => ?_, by decide, by decide, by decide⟩
  have h := dGet?_token_foldl m (scanTokens s.data) []
  show dGet? (buildComposition (scanTokens s.data)) m = _
  unfold buildComposition
  rw [h]
  by_cases hm : (monoMass? m).isSome <;> simp [hm, dGet?_nil]

/-! ### Claim about the crosslinker library (C9) -/

/-- C9: in the crosslinker library, `stub_masses` is non-empty exactly
when `cleavable` is true: DSSO and DSBSO are cleavable with non-empty stub
tables, BS3 and DSS are non-cleavable with empty stub tables. -/
theorem crosslinkers_stub_nonempty_iff_cleavable :
    (CROSSLINKERS.all fun p => (!p.2.stub_masses.isEmpty) == p.2.cleavable) = true ∧
    DSSO.cleavable = true ∧ DSSO.stub_masses ≠ [] ∧
    DSBSO.cleavable = true ∧ DSBSO.stub_masses ≠ [] ∧
    BS3.cleavable = false ∧ BS3.stub_masses = [] ∧
    DSS.cleavable = false ∧ DSS.stub_masses = [] := by
  decide

/-! ### Claim about the false match rate (C8) -/

/-- C8 counterexample: with matched_peaks = 5 and total_peaks = 2 the
false-match-rate computation returns `fmr_peaks = 5/2`, which is not in
`[0, 1]`; the code performs no clamping. -/
theorem calculate_crosslink_fmr_not_bounded :
    (calculate_crosslink_fmr 5 2 0 0).fmr_peaks = 5 / 2 ∧
    ¬(calculate_crosslink_fmr 5 2 0 0).fmr_peaks ≤ 1 := by
  decide

/-- C8 (amended): when the matched counts and intensities are sandwiched
between 0 and their totals (as in every actual spectrum), `fmr_peaks` and
`fmr_intensity` lie in `[0, 1]`; a zero denominator yields 0 rather than
an error. -/
theorem calculate_crosslink_fmr_bounds (mp tp : ℤ) (mi ti : ℚ)
    (h1 : 0 ≤ mp) (h2 : mp ≤ tp) (h3 : 0 ≤ mi) (h4 : mi ≤ ti) :
    (0 ≤ (calculate_crosslink_fmr mp tp mi ti).fmr_peaks ∧
      (calculate_crosslink_fmr mp tp mi ti).fmr_peaks ≤ 1) ∧
    (0 ≤ (calculate_crosslink_fmr mp tp mi ti).fmr_intensity ∧
      (calculate_crosslink_fmr mp tp mi ti).fmr_intensity ≤ 1) ∧
    (tp = 0 → (calculate_crosslink_fmr mp tp mi ti).fmr_peaks = 0) ∧
    (ti = 0 → (calculate_crosslink_fmr mp tp mi ti).fmr_intensity = 0) := by
  unfold calculate_crosslink_fmr
  refine ⟨?_, ?_, ?_, ?_⟩
  · by_cases h : (0 : ℤ) < tp
    · have htp : (0 : ℚ) < (tp : ℚ) := by exact_mod_cast h
      simp only [h, if_true]
      refine ⟨div_nonneg (by exact_mod_cast h1) htp.le, ?_⟩
      rw [div_le_one htp]
      exact_mod_cast h2
    · simp [h]
  · by_cases h : (0 : ℚ) < ti
    · simp only [h, if_true]
      exact ⟨div_nonneg h3 h.le, by rw [div_le_one h]; exact h4⟩
    · simp [h]
  · intro h; simp [h]
  · intro h; simp [h]

/-- C8 witness: the amended bound instantiated at matched 1 of 2 peaks
and matched intensity 1/2 of 1. -/
theorem calculate_crosslink_fmr_bounds_witness :
    (0 ≤ (calculate_crosslink_fmr 1 2 (1/2) 1).fmr_peaks ∧
      (calculate_crosslink_fmr 1 2 (1/2) 1).fmr_peaks ≤ 1) ∧
    (0 ≤ (calculate_crosslink_fmr 1 2 (1/2) 1).fmr_intensity ∧
      (calculate_crosslink_fmr 1 2 (1/2) 1).fmr_intensity ≤ 1) ∧
    ((2 : ℤ) = 0 → (calculate_crosslink_fmr 1 2 (1/2) 1).fmr_peaks = 0) ∧
    ((1 : ℚ) = 0 → (calculate_crosslink_fmr 1 2 (1/2) 1).fmr_intensity = 0) :=
  calculate_crosslink_fmr_bounds 1 2 (1/2) 1 (by norm_num) (by norm_num) (by norm_num)
    (by norm_num)

/-! ### Claim about the oxonium matching loop (C3) -/

/-- C3: the oxonium matching loop of `app.py` records the FIRST observed
peak within tolerance, not the nearest one: for the HexNAc oxonium ion
(204.0867) with 0.05 Da tolerance and observed peaks 204.12 then 204.09,
the loop records 204.12 while the peak of smallest absolute error within
tolerance is 204.09. -/
theorem oxonium_loop_first_hit_not_nearest :
    dGet? OXONIUM_IONS_EXTENDED "HexNAc" = some 204.0867 ∧
    oxoniumFirstMatch 204.0867 0.05 false [(204.12, 100), (204.09, 50)] = some 204.12 ∧
    oxoniumNearestMatch 204.0867 0.05 false [(204.12, 100), (204.09, 50)] = some 204.09 ∧
    (204.12 : ℚ) ≠ 204.09 := by
  decide

/-! ### Claim about glycan identification (C7) -/

theorem mem_glycanMatchesIn (lib : List (String × GlycanComposition)) (mass tol : ℚ)
    (n : String) (g : GlycanComposition) (e : ℚ) :
    (n, g, e) ∈ glycanMatchesIn lib mass tol ↔
      (n, g) ∈ lib ∧ e = |mass - g.mass| ∧ e ≤ tol := by
  unfold glycanMatchesIn
  rw [List.mem_filterMap]
  constructor
  · rintro ⟨⟨pn, pg⟩, hp, hf⟩
    by_cases hc : |mass - pg.mass| ≤ tol
    · rw [if_pos hc] at hf
      obtain ⟨rfl, rfl, rfl⟩ : pn = n ∧ pg = g ∧ |mass - pg.mass| = e := by
        simpa using hf
      exact ⟨hp, rfl, hc⟩
    · rw [if_neg hc] at hf
      exact absurd hf (by simp)
  · rintro ⟨hp, rfl, hle⟩
    exact ⟨(n, g), hp, by simp [hle]⟩

/-- C7: `identify_glycan_from_mass` returns exactly the reference-library
entries (O-glycan set, N-glycan set, or both, according to the selector)
whose mass is within `tolerance_da` of the query, as
(name, composition, absolute error) triples, sorted ascending by absolute
error. -/
theorem identify_glycan_from_mass_spec (mass tol : ℚ) (gtype : String) :
    (∀ (n : String) (g : GlycanComposition) (e : ℚ),
      (n, g, e) ∈ identify_glycan_from_mass mass tol gtype ↔
        (((gtype = "O-glycan" ∨ gtype = "all") ∧ (n, g) ∈ O_GLYCAN_COMPOSITIONS ∨
          (gtype = "N-glycan" ∨ gtype = "all") ∧ (n, g) ∈ N_GLYCAN_COMPOSITIONS) ∧
         e = |mass - g.mass| ∧ e ≤ tol)) ∧
    (identify_glycan_from_mass mass tol gtype).Pairwise (fun a b => a.2.2 ≤ b.2.2) := by
  constructor
  · intro n g e
    unfold identify_glycan_from_mass
    rw [List.Perm.mem_iff (List.mergeSort_perm _ _), List.mem_append]
    constructor
    · rintro (h | h)
      · by_cases hc : gtype = "O-glycan" ∨ gtype = "all"
        · rw [if_pos hc] at h
          obtain ⟨hm, he, hle⟩ := (mem_glycanMatchesIn _ _ _ _ _ _).mp h
          exact ⟨Or.inl ⟨hc, hm⟩, he, hle⟩
        · rw [if_neg hc] at h
          simp at h
      · by_cases hc : gtype = "N-glycan" ∨ gtype = "all"
        · rw [if_pos hc] at h
          obtain ⟨hm, he, hle⟩ := (mem_glycanMatchesIn _ _ _ _ _ _).mp h
          exact ⟨Or.inr ⟨hc, hm⟩, he, hle⟩
        · rw [if_neg hc] at h
          simp at h
    · rintro ⟨hsel, he, hle⟩
      rcases hsel with ⟨hc, hm⟩ | ⟨hc, hm⟩
      · exact Or.inl (by
          rw [if_pos hc]
          exact (mem_glycanMatchesIn _ _ _ _ _ _).mpr ⟨hm, he, hle⟩)
      · exact Or.inr (by
          rw [if_pos hc]
          exact (mem_glycanMatchesIn _ _ _ _ _ _).mpr ⟨hm, he, hle⟩)
  · unfold identify_glycan_from_mass
    refine List.Pairwise.imp ?_ (List.sorted_mergeSort ?_ ?_ _)
    · intro a b h
      exact of_decide_eq_true h
    · intro a b c hab hbc
      simp only [decide_eq_true_eq] at hab hbc ⊢
      exact le_trans hab hbc
    · intro a b
      simp only [Bool.or_eq_true, decide_eq_true_eq]
      exact le_total _ _

/-! ### Injectivity of `Nat.repr`

`generate_crosslink_fragments` builds dict keys with `f'{name}+{charge}'`;
to pin down the charge-expanded dict we need distinct charges to give
distinct keys, i.e. injectivity of the decimal rendering of `ℕ`. -/

def reprDecode (l : List Char) : ℕ :=
  l.foldl (fun a c => 10 * a + (c.toNat - 48)) 0

theorem toDigitsCore_append (fuel : ℕ) :
    ∀ (n : ℕ) (ds : List Char),
      Nat.toDigitsCore 10 fuel n ds = Nat.toDigitsCore 10 fuel n [] ++ ds := by
  induction fuel with
  | zero => intro n ds; simp [Nat.toDigitsCore]
  | succ f ih =>
    intro n ds
    simp only [Nat.toDigitsCore]
    by_cases h : n / 10 = 0
    · simp [h]
    · rw [if_neg h, if_neg h, ih (n / 10) (Nat.digitChar (n % 10) :: ds),
        ih (n / 10) [Nat.digitChar (n % 10)]]
      simp

theorem toDigitsCore_fuel (n : ℕ) :
    ∀ (f₁ f₂ : ℕ), n < f₁ → n < f₂ →
      Nat.toDigitsCore 10 f₁ n [] = Nat.toDigitsCore 10 f₂ n [] := by
  induction n using Nat.strong_induction_on with
  | _ n ih =>
    intro f₁ f₂ h₁ h₂
    obtain ⟨g₁, rfl⟩ : ∃ g, f₁ = g + 1 := ⟨f₁ - 1, by omega⟩
    obtain ⟨g₂, rfl⟩ : ∃ g, f₂ = g + 1 := ⟨f₂ - 1, by omega⟩
    simp only [Nat.toDigitsCore]
    by_cases h : n / 10 = 0
    · simp [h]
    · rw [if_neg h, if_neg h, toDigitsCore_append g₁, toDigitsCore_append g₂]
      have hn : 0 < n := by
        rcases Nat.eq_zero_or_pos n with h0 | h0
        · exact absurd (by simp [h0]) h
        · exact h0
      have hdiv : n / 10 < n := Nat.div_lt_self hn (by norm_num)
      rw [ih (n / 10) hdiv g₁ g₂ (by omega) (by omega)]

theorem reprDecode_append_singleton (l : List Char) (c : Char) :
    reprDecode (l ++ [c]) = 10 * reprDecode l + (c.toNat - 48) := by
  unfold reprDecode
  rw [List.foldl_append]
  rfl

theorem digitChar_decode (m : ℕ) (h : m < 10) : (Nat.digitChar m).toNat - 48 = m := by
  interval_cases m <;> rfl

theorem reprDecode_toDigits (n : ℕ) : reprDecode (Nat.toDigits 10 n) = n := by
  induction n using Nat.strong_induction_on with
  | _ n ih =>
    show reprDecode (Nat.toDigitsCore 10 (n + 1) n []) = n
    simp only [Nat.toDigitsCore]
    by_cases h : n / 10 = 0
    · have hn : n < 10 := by omega
      rw [if_pos h]
      show 10 * 0 + ((Nat.digitChar (n % 10)).toNat - 48) = n
      rw [digitChar_decode _ (Nat.mod_lt _ (by norm_num))]
      omega
    · have hn : 0 < n := by
        rcases Nat.eq_zero_or_pos n with h0 | h0
        · exact absurd (by simp [h0]) h
        · exact h0
      have hdiv : n / 10 < n := Nat.div_lt_self hn (by norm_num)
      rw [if_neg h, toDigitsCore_append n,
        toDigitsCore_fuel (n / 10) n (n / 10 + 1) (by omega) (by omega),
        reprDecode_append_singleton]
      rw [show Nat.toDigitsCore 10 (n / 10 + 1) (n / 10) [] = Nat.toDigits 10 (n / 10) from rfl]
      rw [ih (n / 10) hdiv, digitChar_decode _ (Nat.mod_lt _ (by norm_num))]
      omega

theorem string_data_inj {s t : String} (h : s.data = t.data) : s = t := by
  cases s
  cases t
  exact congrArg String.mk h

theorem toDigits_ne_nil (n : ℕ) : Nat.toDigits 10 n ≠ [] := by
  show Nat.toDigitsCore 10 (n + 1) n [] ≠ []
  simp only [Nat.toDigitsCore]
  by_cases h : n / 10 = 0
  · simp [h]
  · rw [if_neg h, toDigitsCore_append n]
    simp

theorem natRepr_inj {m n : ℕ} (h : Nat.repr m = Nat.repr n) : m = n := by
  have hd : Nat.toDigits 10 m = Nat.toDigits 10 n := congrArg String.data h
  have := congrArg reprDecode hd
  rwa [reprDecode_toDigits, reprDecode_toDigits] at this

/-! ### Claim about non-cleavable crosslinkers (C5) -/

theorem dUpdate_eq_append {α : Type} (d : List (String × α)) (k : String) (v : α)
    (h : k ∉ dKeys d) : dUpdate d k v = d ++ [(k, v)] := by
  induction d with
  | nil => rfl
  | cons p rest ih =>
    obtain ⟨k', v'⟩ := p
    simp only [dKeys, List.map_cons, List.mem_cons, not_or] at h
    simp only [dUpdate, Ne.symm h.1, if_false]
    rw [ih (by simpa [dKeys] using h.2)]
    simp

theorem foldl_dUpdate_fresh {α : Type} (key : ℕ → String) (val : ℕ → α) :
    ∀ (l : List ℕ) (d : List (String × α)),
      (∀ c ∈ l, key c ∉ dKeys d) → l.Pairwise (fun a b => key a ≠ key b) →
      l.foldl (fun d c => dUpdate d (key c) (val c)) d =
        d ++ l.map (fun c => (key c, val c)) := by
  intro l
  induction l with
  | nil => intro d _ _; simp
  | cons c cs ih =>
    intro d hfresh hpair
    rw [List.foldl_cons, dUpdate_eq_append _ _ _ (hfresh c (List.mem_cons_self _ _))]
    rw [ih (d ++ [(key c, val c)]) ?_ (List.Pairwise.of_cons hpair)]
    · simp
    · intro c' hc'
      simp only [dKeys, List.map_append, List.mem_append, List.map_cons, List.map_nil,
        List.mem_singleton, not_or]
      refine ⟨fun hc => hfresh c' (List.mem_cons_of_mem _ hc') (by simpa [dKeys] using hc), ?_⟩
      exact fun hc => (List.rel_of_pairwise_cons hpair hc') hc.symm

theorem intactPlus_ne_intact (c : ℕ) : ("intact+" ++ Nat.repr c : String) ≠ "intact" := by
  intro h
  have hlen := congrArg (fun s : String => s.data.length) h
  simp [String.data_append] at hlen

theorem intactPlus_inj {a b : ℕ} (h : ("intact+" ++ Nat.repr a : String) = "intact+" ++ Nat.repr b) :
    a = b := by
  have hd := congrArg String.data h
  simp only [String.data_append] at hd
  have := List.append_cancel_left hd
  exact natRepr_inj (string_data_inj this)

/-- C5: for a non-cleavable crosslinker `generate_crosslink_fragments`
produces no peptide stub ions and no diagnostic ions, and its precursor
table is exactly the single intact neutral mass
`peptide1 + peptide2 + intact_mass` followed by its charged versions for
charges 1..precursor_charge; and `identify_crosslink_stubs` returns no
matches whatever the observed masses, peptide mass and tolerance. -/
theorem generate_crosslink_fragments_noncleavable (p1 p2 : ℚ) (xl : Crosslinker)
    (pc : ℕ) (inl : Bool) (obs : List ℚ) (pm tol : ℚ) (h : xl.cleavable = false) :
    (generate_crosslink_fragments p1 p2 xl pc inl).peptide1 = [] ∧
    (generate_crosslink_fragments p1 p2 xl pc inl).peptide2 = [] ∧
    (generate_crosslink_fragments p1 p2 xl pc inl).diagnostic = [] ∧
    (generate_crosslink_fragments p1 p2 xl pc inl).precursor =
      ("intact", p1 + p2 + xl.intact_mass) ::
        (List.range' 1 pc).map (fun c =>
          ("intact+" ++ Nat.repr c, ((p1 + p2 + xl.intact_mass) + c * PROTON) / c)) ∧
    identify_crosslink_stubs obs pm xl tol = [] := by
  simp only [generate_crosslink_fragments, identify_crosslink_stubs, h, Bool.false_eq_true,
    if_false]
  refine ⟨trivial, trivial, trivial, ?_, trivial⟩
  rw [foldl_dUpdate_fresh (fun c => "intact+" ++ Nat.repr c)
    (fun c => ((p1 + p2 + xl.intact_mass) + c * PROTON) / c) (List.range' 1 pc)
    (dUpdate [] "intact" (p1 + p2 + xl.intact_mass)) ?_ ?_]
  · rfl
  · intro c _
    simp only [dUpdate, dKeys, List.map_cons, List.map_nil, List.mem_singleton]
    exact intactPlus_ne_intact c
  · exact (List.pairwise_lt_range' 1 pc).imp
      (fun hab hk => absurd (intactPlus_inj hk) (Nat.ne_of_lt hab))

/-- C5 witness: the non-cleavable behaviour instantiated on BS3 with
peptide masses 1000 and 1200, precursor charge 2, and an observed peak
list [500]. -/
theorem generate_crosslink_fragments_noncleavable_witness :
    (generate_crosslink_fragments 1000 1200 BS3 2 true).peptide1 = [] ∧
    (generate_crosslink_fragments 1000 1200 BS3 2 true).peptide2 = [] ∧
    (generate_crosslink_fragments 1000 1200 BS3 2 true).diagnostic = [] ∧
    (generate_crosslink_fragments 1000 1200 BS3 2 true).precursor =
      ("intact", 1000 + 1200 + BS3.intact_mass) ::
        (List.range' 1 2).map (fun c =>
          ("intact+" ++ Nat.repr c, ((1000 + 1200 + BS3.intact_mass) + c * PROTON) / c)) ∧
    identify_crosslink_stubs [500] 1000 BS3 0.02 = [] :=
  generate_crosslink_fragments_noncleavable 1000 1200 BS3 2 true [500] 1000 0.02 rfl

/-! ### Claim about water-loss variants of the Y ladder (C6) -/

theorem endsWithH2O_append (s : String) : endsWithH2O (s ++ "-H2O") = true := by
  unfold endsWithH2O
  rw [String.data_append]
  exact List.isSuffixOf_iff_suffix.mpr (List.suffix_append _ _)

theorem appendH2O_ne {k : String} (h : endsWithH2O k = false) (n : String) :
    n ++ "-H2O" ≠ k := by
  intro he
  rw [← he, endsWithH2O_append] at h
  exact Bool.noConfusion h

theorem appendH2O_inj {a b : String} (h : a ++ "-H2O" = b ++ "-H2O") : a = b := by
  have hd := congrArg String.data h
  rw [String.data_append, String.data_append] at hd
  exact string_data_inj (List.append_cancel_right hd)

theorem dGet?_waterLossPass_preserve (snapshot d : List (String × ℚ)) (k : String)
    (h : endsWithH2O k = false) :
    dGet? (waterLossPass snapshot d) k = dGet? d k := by
  unfold waterLossPass
  refine dGet?_foldl_preserve _ k snapshot (fun acc p _ => ?_) d
  by_cases hw : endsWithH2O p.1
  · rw [if_pos hw]
  · rw [if_neg hw]
    exact dGet?_dUpdate_ne _ _ _ _ (appendH2O_ne h _)

theorem waterLossPass_lookup (snapshot : List (String × ℚ)) (k : String) (m : ℚ)
    (hmem : (k, m) ∈ snapshot) (hk : endsWithH2O k = false)
    (hnodup : (dKeys snapshot).Nodup) :
    ∀ d, dGet? (waterLossPass snapshot d) (k ++ "-H2O") = some (m - 18.0106) := by
  induction snapshot with
  | nil => cases hmem
  | cons p rest ih =>
    intro d
    obtain ⟨k', m'⟩ := p
    simp only [dKeys, List.map_cons, List.nodup_cons] at hnodup
    unfold waterLossPass
    rw [List.foldl_cons]
    rcases List.mem_cons.mp hmem with heq | hmem'
    · obtain ⟨hk1, hm1⟩ : k = k' ∧ m = m' := by simpa using heq
      subst hk1
      subst hm1
      rw [if_neg (by simp [hk])]
      have hpres : ∀ acc (p' : String × ℚ), p' ∈ rest →
          dGet? (if endsWithH2O p'.1 then acc
            else dUpdate acc (p'.1 ++ "-H2O") (p'.2 - 18.0106)) (k ++ "-H2O")
            = dGet? acc (k ++ "-H2O") := by
        intro acc p' hp'
        by_cases hw : endsWithH2O p'.1
        · rw [if_pos hw]
        · rw [if_neg hw]
          refine dGet?_dUpdate_ne _ _ _ _ (fun hcc => ?_)
          have hpk : p'.1 = k := appendH2O_inj hcc
          exact hnodup.1 (by
            rw [← hpk]
            exact List.mem_map_of_mem (·.1) hp')
      rw [dGet?_foldl_preserve _ _ rest hpres]
      exact dGet?_dUpdate_self _ _ _
    · exact ih hmem' hnodup.2 _

theorem nodupKeys_yLadderStep (gt : String) (comp : List (String × ℕ)) (pm : ℚ)
    (acc : List (String × ℚ)) (i : ℕ) (h : (dKeys acc).Nodup) :
    (dKeys (yLadderStep gt comp pm acc i)).Nodup := by
  simp only [yLadderStep]
  split_ifs
  all_goals
    repeat apply nodup_dKeys_dUpdate
  all_goals exact h

/-- C6: with water loss enabled, every entry of the Y-ion ladder whose
name does not end in `-H2O` has a `-H2O` variant whose mass is the base
mass minus 18.0106, for every glycan composition and peptide mass. -/
theorem y_ion_series_water_loss (glycan : GlycanComposition) (pm : ℚ) (tmtOn : Bool)
    (tmtM : ℚ) (k : String) (m : ℚ)
    (hk : dGet? (generate_y_ion_series glycan pm true tmtOn tmtM) k = some m)
    (hnk : endsWithH2O k = false) :
    dGet? (generate_y_ion_series glycan pm true tmtOn tmtM) (k ++ "-H2O") =
      some (m - 18.0106) := by
  by_cases hty : glycan.glycan_type = "O-GlcNAc" ∨ glycan.glycan_type = "O-GalNAc"
  · simp only [generate_y_ion_series] at hk ⊢
    rw [if_pos hty] at hk ⊢
    have hmem := mem_of_dGet?_eq_some hk
    simp [dUpdate] at hmem
    rcases hmem with ⟨rfl, rfl⟩ | ⟨rfl, rfl⟩ | ⟨rfl, rfl⟩ | ⟨rfl, rfl⟩
    · simp [dUpdate, dGet?_cons]
    · exact absurd hnk (by decide)
    · simp [dUpdate, dGet?_cons]
    · exact absurd hnk (by decide)
  · simp only [generate_y_ion_series] at hk ⊢
    rw [if_neg hty] at hk ⊢
    simp only [if_true] at hk ⊢
    rw [dGet?_waterLossPass_preserve _ _ _ hnk] at hk
    have hnodup : (dKeys (dUpdate ((List.range' 1 ((glycan.composition.map (·.2)).sum)).foldl
        (yLadderStep glycan.glycan_type glycan.composition pm)
        (dUpdate (dUpdate [] "Y0" pm) "Y0-H2O" (pm - 18.0106)))
        "Y(intact)" (pm + (if tmtOn then glycan.mass + tmtM else glycan.mass)))).Nodup := by
      refine nodup_dKeys_dUpdate _ _ _ ?_
      refine foldl_induction (fun d : List (String × ℚ) => (dKeys d).Nodup)
        (yLadderStep glycan.glycan_type glycan.composition pm) _
        (fun acc i _ hacc => nodupKeys_yLadderStep _ _ _ _ _ hacc) _ ?_
      exact nodup_dKeys_dUpdate _ _ _ (nodup_dKeys_dUpdate _ _ _ (by simp [dKeys]))
    exact waterLossPass_lookup _ k m (mem_of_dGet?_eq_some hk) hnk hnodup _

/-- C6 witness: the water-loss property applied to the `Y0` entry of the
O-GlcNAc ladder at peptide mass 1000. -/
theorem y_ion_series_water_loss_witness :
    dGet? (generate_y_ion_series ⟨"O-GlcNAc", [("HexNAc", 1)], 203.0794, "O-GlcNAc"⟩
      1000 true false 229.1629) ("Y0" ++ "-H2O") = some (1000 - 18.0106) :=
  y_ion_series_water_loss ⟨"O-GlcNAc", [("HexNAc", 1)], 203.0794, "O-GlcNAc"⟩
    1000 false 229.1629 "Y0" 1000 (by decide) (by decide)

/-! ### Claim about `Y0` and `Y(intact)` (C1) -/

/-- C1 counterexample: for the library's simple `O-GlcNAc` glycan the
ladder of `generate_y_ion_series` has NO `Y(intact)` entry; the intact
glycopeptide ion is keyed `Y1` there. -/
theorem y_ion_series_no_intact_key_for_o_glcnac :
    dGet? (generate_y_ion_series ⟨"O-GlcNAc", [("HexNAc", 1)], 203.0794, "O-GlcNAc"⟩
      1000 true false 229.1629) "Y(intact)" = none ∧
    dGet? (generate_y_ion_series ⟨"O-GlcNAc", [("HexNAc", 1)], 203.0794, "O-GlcNAc"⟩
      1000 true false 229.1629) "Y1" = some (1000 + 203.0794) := by
  decide

theorem dGet?_yLadderStep_preserve (gt : String) (comp : List (String × ℕ)) (pm : ℚ)
    (acc : List (String × ℚ)) (i : ℕ) (k : String)
    (h1 : "Y1" ≠ k) (h2 : "Y2" ≠ k) (h3 : "Y(core)" ≠ k) (h4 : "Y(core+F)" ≠ k) :
    dGet? (yLadderStep gt comp pm acc i) k = dGet? acc k := by
  simp only [yLadderStep]
  split_ifs <;>
    simp only [dGet?_dUpdate_ne _ _ _ _ h1, dGet?_dUpdate_ne _ _ _ _ h2,
      dGet?_dUpdate_ne _ _ _ _ h3, dGet?_dUpdate_ne _ _ _ _ h4]

theorem ne_of_append_last (suffix k : String) (hs : suffix.data ≠ [])
    (h : suffix.data.getLast? ≠ k.data.getLast?) : ∀ n : String, n ++ suffix ≠ k := by
  intro n he
  apply h
  rw [← congrArg String.data he, String.data_append,
    List.getLast?_append_of_ne_nil _ hs]

theorem dGet?_sialPass1_preserve (nm : ℚ) (snapshot d : List (String × ℚ)) (k : String)
    (h : ∀ n : String, n ++ "S1" ≠ k) :
    dGet? (sialPass1 nm snapshot d) k = dGet? d k := by
  unfold sialPass1
  refine dGet?_foldl_preserve _ k snapshot (fun acc p _ => ?_) d
  by_cases hw : hasCoreOrBi p.1
  · rw [if_pos hw]
    exact dGet?_dUpdate_ne _ _ _ _ (h p.1)
  · rw [if_neg hw]

theorem dGet?_sialPass2_preserve (nm : ℚ) (snapshot d : List (String × ℚ)) (k : String)
    (h : ∀ n : String, n ++ "S2" ≠ k) :
    dGet? (sialPass2 nm snapshot d) k = dGet? d k := by
  unfold sialPass2
  refine dGet?_foldl_preserve _ k snapshot (fun acc p _ => ?_) d
  by_cases hw : hasCoreOrBi p.1 ∧ ¬hasSChar p.1
  · rw [if_pos hw]
    exact dGet?_dUpdate_ne _ _ _ _ (h p.1)
  · rw [if_neg hw]

theorem dGet?_condUpdate2 (b1 b2 : Prop) [Decidable b1] [Decidable b2]
    (d : List (String × ℚ)) (k1 k2 k : String) (v1 v2 : ℚ)
    (h1 : k1 ≠ k) (h2 : k2 ≠ k) :
    dGet? (if b1 then (if b2 then dUpdate (dUpdate d k1 v1) k2 v2 else dUpdate d k1 v1)
      else d) k = dGet? d k := by
  split
  · split
    · rw [dGet?_dUpdate_ne _ _ _ _ h2, dGet?_dUpdate_ne _ _ _ _ h1]
    · rw [dGet?_dUpdate_ne _ _ _ _ h1]
  · rfl

theorem dGet?_Y0_base (pm : ℚ) (wl : Bool) :
    dGet? (if wl then dUpdate (dUpdate [] "Y0" pm) "Y0-H2O" (pm - 18.0106)
      else dUpdate [] "Y0" pm) "Y0" = some pm := by
  split
  · rw [dGet?_dUpdate_ne _ _ _ _ (by decide), dGet?_dUpdate_self]
  · rw [dGet?_dUpdate_self]

/-- C1 (amended): `Y0` always maps to the bare peptide mass in both
generators. In `generate_y_ion_series` (TMT off) the INTACT glycopeptide
ion is keyed `Y1` for the simple `O-GlcNAc`/`O-GalNAc` glycan types and
`Y(intact)` for every other type, with mass peptide + glycan mass. In
`generate_n_glycan_y_ions`, `Y(intact)` maps to the peptide mass plus the
HexNAc/Hex/Fuc/NeuAc content of the composition (which is the glycan's
total mass exactly when the composition uses only those four symbols). -/
theorem y_ion_ladder_y0_and_intact :
    (∀ (glycan : GlycanComposition) (pm tmtM : ℚ) (wl : Bool),
      dGet? (generate_y_ion_series glycan pm wl false tmtM) "Y0" = some pm) ∧
    (∀ (glycan : GlycanComposition) (pm tmtM : ℚ) (wl : Bool),
      (glycan.glycan_type = "O-GlcNAc" ∨ glycan.glycan_type = "O-GalNAc") →
      dGet? (generate_y_ion_series glycan pm wl false tmtM) "Y1" =
        some (pm + glycan.mass)) ∧
    (∀ (glycan : GlycanComposition) (pm tmtM : ℚ) (wl : Bool),
      ¬(glycan.glycan_type = "O-GlcNAc" ∨ glycan.glycan_type = "O-GalNAc") →
      dGet? (generate_y_ion_series glycan pm wl false tmtM) "Y(intact)" =
        some (pm + glycan.mass)) ∧
    (∀ (comp : List (String × ℕ)) (pm : ℚ) (fv : Bool),
      dGet? (generate_n_glycan_y_ions comp pm fv) "Y0" = some pm ∧
      dGet? (generate_n_glycan_y_ions comp pm fv) "Y(intact)" =
        some (pm + ((dGetD comp "HexNAc" 0) * monoMassD "HexNAc" +
          (dGetD comp "Hex" 0) * monoMassD "Hex" +
          (dGetD comp "Fuc" 0) * monoMassD "Fuc" +
          (dGetD comp "NeuAc" 0) * monoMassD "NeuAc"))) := by
  refine ⟨?_, ?_, ?_, ?_⟩
  · intro glycan pm tmtM wl
    simp only [generate_y_ion_series, Bool.false_eq_true, if_false]
    split
    · split
      · rw [dGet?_dUpdate_ne _ _ _ _ (by decide), dGet?_dUpdate_ne _ _ _ _ (by decide),
          dGet?_dUpdate_ne _ _ _ _ (by decide), dGet?_dUpdate_self]
      · rw [dGet?_dUpdate_ne _ _ _ _ (by decide), dGet?_dUpdate_self]
    · split
      · rw [dGet?_waterLossPass_preserve _ _ _ (by decide),
          dGet?_dUpdate_ne _ _ _ _ (by decide),
          dGet?_foldl_preserve _ _ _ (fun acc i _ =>
            dGet?_yLadderStep_preserve _ _ _ acc i "Y0"
              (by decide) (by decide) (by decide) (by decide)),
          dGet?_dUpdate_ne _ _ _ _ (by decide), dGet?_dUpdate_self]
      · rw [dGet?_dUpdate_ne _ _ _ _ (by decide),
          dGet?_foldl_preserve _ _ _ (fun acc i _ =>
            dGet?_yLadderStep_preserve _ _ _ acc i "Y0"
              (by decide) (by decide) (by decide) (by decide)),
          dGet?_dUpdate_self]
  · intro glycan pm tmtM wl hty
    simp only [generate_y_ion_series, Bool.false_eq_true, if_false]
    rw [if_pos hty]
    split
    · rw [dGet?_dUpdate_ne _ _ _ _ (by decide), dGet?_dUpdate_self]
    · rw [dGet?_dUpdate_self]
  · intro glycan pm tmtM wl hty
    simp only [generate_y_ion_series, Bool.false_eq_true, if_false]
    rw [if_neg hty]
    split
    · rw [dGet?_waterLossPass_preserve _ _ _ (by decide), dGet?_dUpdate_self]
    · rw [dGet?_dUpdate_self]
  · intro comp pm fv
    constructor
    · simp only [generate_n_glycan_y_ions]
      rw [dGet?_dUpdate_ne _ _ _ _ (by decide)]
      have hsial : ∀ d : List (String × ℚ),
          dGet? (if 1 ≤ dGetD comp "NeuAc" 0 then
            (if 2 ≤ dGetD comp "NeuAc" 0 then
              sialPass2 (monoMassD "NeuAc") (sialPass1 (monoMassD "NeuAc") d d)
                (sialPass1 (monoMassD "NeuAc") d d)
             else sialPass1 (monoMassD "NeuAc") d d) else d) "Y0" = dGet? d "Y0" := by
        intro d
        have hS1 : ∀ n : String, n ++ "S1" ≠ "Y0" :=
          ne_of_append_last "S1" "Y0" (by decide) (by decide)
        have hS2 : ∀ n : String, n ++ "S2" ≠ "Y0" :=
          ne_of_append_last "S2" "Y0" (by decide) (by decide)
        split
        · split
          · rw [dGet?_sialPass2_preserve _ _ _ _ hS2, dGet?_sialPass1_preserve _ _ _ _ hS1]
          · rw [dGet?_sialPass1_preserve _ _ _ _ hS1]
        · rfl
      rw [hsial]
      rw [dGet?_condUpdate2 _ _ _ _ _ _ _ _ (by decide) (by decide)]
      rw [dGet?_condUpdate2 _ _ _ _ _ _ _ _ (by decide) (by decide)]
      rw [dGet?_condUpdate2 _ _ _ _ _ _ _ _ (by decide) (by decide)]
      rw [dGet?_condUpdate2 _ _ _ _ _ _ _ _ (by decide) (by decide)]
      rw [dGet?_condUpdate2 _ _ _ _ _ _ _ _ (by decide) (by decide)]
      rw [dGet?_condUpdate2 _ _ _ _ _ _ _ _ (by decide) (by decide)]
      rw [dGet?_condUpdate2 _ _ _ _ _ _ _ _ (by decide) (by decide)]
      exact dGet?_dUpdate_self _ _ _
    · simp only [generate_n_glycan_y_ions]
      exact dGet?_dUpdate_self _ _ _

/-- C1 witness: the amended ladder facts instantiated on the O-GlcNAc
library glycan (simple branch) and on the Man5 composition (complex
branch and `generate_n_glycan_y_ions`). -/
theorem y_ion_ladder_y0_and_intact_witness :
    dGet? (generate_y_ion_series ⟨"O-GlcNAc", [("HexNAc", 1)], 203.0794, "O-GlcNAc"⟩
      1000 true false 229.1629) "Y1" =
      some (1000 + (⟨"O-GlcNAc", [("HexNAc", 1)], 203.0794, "O-GlcNAc"⟩ :
        GlycanComposition).mass) ∧
    dGet? (generate_y_ion_series ⟨"Man5", [("HexNAc", 2), ("Hex", 5)], 1216.4226, "N-glycan"⟩
      1000 true false 229.1629) "Y(intact)" =
      some (1000 + (⟨"Man5", [("HexNAc", 2), ("Hex", 5)], 1216.4226, "N-glycan"⟩ :
        GlycanComposition).mass) ∧
    dGet? (generate_n_glycan_y_ions [("HexNAc", 2), ("Hex", 5)] 1000 true) "Y0" =
      some 1000 ∧
    dGet? (generate_n_glycan_y_ions [("HexNAc", 2), ("Hex", 5)] 1000 true) "Y(intact)" =
      some (1000 + ((dGetD [("HexNAc", 2), ("Hex", 5)] "HexNAc" 0) * monoMassD "HexNAc" +
        (dGetD [("HexNAc", 2), ("Hex", 5)] "Hex" 0) * monoMassD "Hex" +
        (dGetD [("HexNAc", 2), ("Hex", 5)] "Fuc" 0) * monoMassD "Fuc" +
        (dGetD [("HexNAc", 2), ("Hex", 5)] "NeuAc" 0) * monoMassD "NeuAc")) :=
  ⟨y_ion_ladder_y0_and_intact.2.1 _ 1000 229.1629 true (Or.inl rfl),
   y_ion_ladder_y0_and_intact.2.2.1 _ 1000 229.1629 true (by decide),
   (y_ion_ladder_y0_and_intact.2.2.2 [("HexNAc", 2), ("Hex", 5)] 1000 true).1,
   (y_ion_ladder_y0_and_intact.2.2.2 [("HexNAc", 2), ("Hex", 5)] 1000 true).2⟩

/-! ### Claim about cleavable crosslink fragments (C4)

The charge loop keys are `f'{name}+{charge}'`; the lemmas below isolate
the string facts needed: a charged key contains `+`, the decimal charge
rendering holds only digit characters, and the segment after the last `+`
identifies the charge. -/

theorem hasPlusChar_iff (k : String) : hasPlusChar k = true ↔ '+' ∈ k.data :=
  List.elem_iff

theorem noPlus_of_hasPlusChar_eq_false {k : String} (h : hasPlusChar k = false) :
    '+' ∉ k.data := by
  intro hc
  rw [(hasPlusChar_iff k).mpr hc] at h
  exact Bool.noConfusion h

theorem chargedKey_data (n : String) (c : ℕ) :
    (n ++ "+" ++ Nat.repr c).data = n.data ++ '+' :: (Nat.repr c).data := by
  rw [String.data_append, String.data_append]
  simp

theorem hasPlusChar_chargedKey (n : String) (c : ℕ) :
    hasPlusChar (n ++ "+" ++ Nat.repr c) = true := by
  refine (hasPlusChar_iff _).mpr ?_
  rw [chargedKey_data]
  exact List.mem_append_right _ (List.mem_cons_self _ _)

theorem chargedKey_ne_of_noPlus {k : String} (h : hasPlusChar k = false) (n : String)
    (c : ℕ) : n ++ "+" ++ Nat.repr c ≠ k := by
  intro he
  rw [← he, hasPlusChar_chargedKey] at h
  exact Bool.noConfusion h

theorem hasPlusChar_append {n s : String} (hn : hasPlusChar n = false)
    (hs : hasPlusChar s = false) : hasPlusChar (n ++ s) = false := by
  rcases hb : hasPlusChar (n ++ s) with _ | _
  · rfl
  · exfalso
    have := (hasPlusChar_iff _).mp hb
    rw [String.data_append] at this
    rcases List.mem_append.mp this with h | h
    · exact noPlus_of_hasPlusChar_eq_false hn h
    · exact noPlus_of_hasPlusChar_eq_false hs h

theorem toDigits_decomp (n : ℕ) :
    Nat.toDigits 10 n =
      (if n / 10 = 0 then [] else Nat.toDigits 10 (n / 10)) ++ [Nat.digitChar (n % 10)] := by
  show Nat.toDigitsCore 10 (n + 1) n [] = _
  simp only [Nat.toDigitsCore]
  by_cases h : n / 10 = 0
  · simp [h]
  · have hn : 0 < n := by
      rcases Nat.eq_zero_or_pos n with h0 | h0
      · exact absurd (by simp [h0]) h
      · exact h0
    have hdiv : n / 10 < n := Nat.div_lt_self hn (by norm_num)
    rw [if_neg h, if_neg h, toDigitsCore_append n,
      toDigitsCore_fuel (n / 10) n (n / 10 + 1) (by omega) (by omega)]
    rfl

theorem toDigits_digitChars (n : ℕ) :
    ∀ ch ∈ Nat.toDigits 10 n, ∃ m, m < 10 ∧ ch = Nat.digitChar m := by
  induction n using Nat.strong_induction_on with
  | _ n ih =>
    intro ch hch
    rw [toDigits_decomp] at hch
    rcases List.mem_append.mp hch with h | h
    · by_cases hz : n / 10 = 0
      · rw [if_pos hz] at h
        cases h
      · rw [if_neg hz] at h
        have hn : 0 < n := by
          rcases Nat.eq_zero_or_pos n with h0 | h0
          · exact absurd (by simp [h0]) hz
          · exact h0
        exact ih (n / 10) (Nat.div_lt_self hn (by norm_num)) ch h
    · rw [List.mem_singleton] at h
      exact ⟨n % 10, Nat.mod_lt _ (by norm_num), h⟩

theorem repr_chars (c : ℕ) :
    ∀ ch ∈ (Nat.repr c).data, ∃ m, m < 10 ∧ ch = Nat.digitChar m :=
  toDigits_digitChars c

theorem digitChar_lt10_props (m : ℕ) (h : m < 10) :
    Nat.digitChar m ≠ '+' ∧ Nat.digitChar m ≠ 'H' := by
  interval_cases m <;> exact ⟨by decide, by decide⟩

theorem noPlus_repr (c : ℕ) : '+' ∉ (Nat.repr c).data := by
  intro h
  rcases repr_chars c '+' h with ⟨m, hm, he⟩
  exact (digitChar_lt10_props m hm).1 he.symm

theorem noH_repr (c : ℕ) : 'H' ∉ (Nat.repr c).data := by
  intro h
  rcases repr_chars c 'H' h with ⟨m, hm, he⟩
  exact (digitChar_lt10_props m hm).2 he.symm

theorem takeWhile_of_clean_front (p : Char → Bool) :
    ∀ (xs : List Char) (y : Char) (ys : List Char),
      (∀ x ∈ xs, p x = true) → p y = false → List.takeWhile p (xs ++ y :: ys) = xs := by
  intro xs
  induction xs with
  | nil => intro y ys _ hy; simp [List.takeWhile, hy]
  | cons a as ih =>
    intro y ys hx hy
    simp only [List.cons_append, List.takeWhile]
    rw [hx a (List.mem_cons_self _ _)]
    simp [ih y ys (fun x hx' => hx x (List.mem_cons_of_mem _ hx')) hy]

theorem plusSegment_eq {a b r1 r2 : List Char} (h : a ++ '+' :: r1 = b ++ '+' :: r2)
    (h1 : '+' ∉ r1) (h2 : '+' ∉ r2) : r1 = r2 := by
  have hrev := congrArg List.reverse h
  simp only [List.reverse_append, List.reverse_cons, List.append_assoc,
    List.singleton_append] at hrev
  have := congrArg (List.takeWhile (fun ch => !(ch == '+'))) hrev
  rw [takeWhile_of_clean_front _ _ '+' _
      (fun x hx => by
        have : x ≠ '+' := fun he => h1 (he ▸ List.mem_reverse.mp hx)
        simpa using this) (by simp),
    takeWhile_of_clean_front _ _ '+' _
      (fun x hx => by
        have : x ≠ '+' := fun he => h2 (he ▸ List.mem_reverse.mp hx)
        simpa using this) (by simp)] at this
  exact List.reverse_injective this

theorem chargedKey_inj {n n' : String} {c c' : ℕ}
    (h : n ++ "+" ++ Nat.repr c = n' ++ "+" ++ Nat.repr c') : c = c' := by
  have hd := congrArg String.data h
  rw [chargedKey_data, chargedKey_data] at hd
  exact natRepr_inj (string_data_inj (plusSegment_eq hd (noPlus_repr c) (noPlus_repr c')))

theorem nodup_dKeys_foldl_dUpdate {α β : Type} (step : List (String × α) → β → List (String × α))
    (l : List β) (h : ∀ acc x, (dKeys acc).Nodup → (dKeys (step acc x)).Nodup)
    (d : List (String × α)) (hd : (dKeys d).Nodup) : (dKeys (l.foldl step d)).Nodup :=
  foldl_induction (fun d : List (String × α) => (dKeys d).Nodup) step l
    (fun acc x _ hacc => h acc x hacc) d hd

theorem nodup_dKeys_chargeStep (c : ℕ) (d : List (String × ℚ))
    (h : (dKeys d).Nodup) : (dKeys (chargeStep c d)).Nodup :=
  nodup_dKeys_foldl_dUpdate _ d (fun _ _ hacc => nodup_dKeys_dUpdate _ _ _ hacc) d h

theorem nodup_dKeys_lossPass (d : List (String × ℚ))
    (h : (dKeys d).Nodup) : (dKeys (lossPass d)).Nodup := by
  refine nodup_dKeys_foldl_dUpdate _ d (fun acc p hacc => ?_) d h
  by_cases hw : hasPlusChar p.1
  · rwa [if_pos hw]
  · rw [if_neg hw]
    exact nodup_dKeys_dUpdate _ _ _ (nodup_dKeys_dUpdate _ _ _ hacc)

theorem dGet?_chargeStep_preserve (c : ℕ) (d : List (String × ℚ)) (k : String)
    (h : ∀ n : String, n ++ "+" ++ Nat.repr c ≠ k) :
    dGet? (chargeStep c d) k = dGet? d k := by
  unfold chargeStep
  exact dGet?_foldl_preserve _ k d
    (fun acc p _ => dGet?_dUpdate_ne _ _ _ _ (h p.1)) d

theorem dGet?_chargeStep_lookup (c : ℕ) (snapshot : List (String × ℚ)) (n : String) (m : ℚ)
    (hmem : (n, m) ∈ snapshot) (hnodup : (dKeys snapshot).Nodup) :
    ∀ d, dGet? (snapshot.foldl
        (fun acc p => dUpdate acc (p.1 ++ "+" ++ Nat.repr c) ((p.2 + c * PROTON) / c)) d)
      (n ++ "+" ++ Nat.repr c) = some ((m + c * PROTON) / c) := by
  induction snapshot with
  | nil => cases hmem
  | cons p rest ih =>
    intro d
    obtain ⟨k', m'⟩ := p
    simp only [dKeys, List.map_cons, List.nodup_cons] at hnodup
    rw [List.foldl_cons]
    rcases List.mem_cons.mp hmem with heq | hmem'
    · obtain ⟨hk1, hm1⟩ : n = k' ∧ m = m' := by simpa using heq
      subst hk1
      subst hm1
      rw [dGet?_foldl_preserve _ _ rest (fun acc p' hp' =>
        dGet?_dUpdate_ne _ _ _ _ (fun hcc => by
          have hd := congrArg String.data hcc
          rw [chargedKey_data, chargedKey_data] at hd
          have : p'.1 = n := string_data_inj (List.append_cancel_right hd)
          exact hnodup.1 (by
            rw [← this]
            exact List.mem_map_of_mem (·.1) hp')))]
      exact dGet?_dUpdate_self _ _ _
    · exact ih hmem' hnodup.2 _

theorem dGet?_chargeStep_lookup' (c : ℕ) (d : List (String × ℚ)) (n : String) (m : ℚ)
    (hmem : (n, m) ∈ d) (hnodup : (dKeys d).Nodup) :
    dGet? (chargeStep c d) (n ++ "+" ++ Nat.repr c) = some ((m + c * PROTON) / c) :=
  dGet?_chargeStep_lookup c d n m hmem hnodup d

theorem endsWithNH3_append (s : String) : endsWithNH3 (s ++ "-NH3") = true := by
  unfold endsWithNH3
  rw [String.data_append]
  exact List.isSuffixOf_iff_suffix.mpr (List.suffix_append _ _)

theorem appendNH3_ne {k : String} (h : endsWithNH3 k = false) (n : String) :
    n ++ "-NH3" ≠ k := by
  intro he
  rw [← he, endsWithNH3_append] at h
  exact Bool.noConfusion h

theorem hasPlusChar_lossKey {n : String} (hn : hasPlusChar n = false) (s : String)
    (hs : hasPlusChar s = false) (k : String) (hk : hasPlusChar k = true) :
    n ++ s ≠ k := by
  intro he
  rw [← he, hasPlusChar_append hn hs] at hk
  exact Bool.noConfusion hk

theorem lossKey_cross_ne (n k : String) : n ++ "-NH3" ≠ k ++ "-H2O" := by
  intro he
  have hd := congrArg String.data he
  rw [String.data_append, String.data_append] at hd
  have hlen : n.data.length = k.data.length := by
    have h2 := congrArg List.length hd
    rw [List.length_append, List.length_append] at h2
    have e1 : ("-NH3" : String).data.length = 4 := rfl
    have e2 : ("-H2O" : String).data.length = 4 := rfl
    omega
  have := (List.append_inj hd hlen).2
  exact absurd this (by decide)

theorem dGet?_lossPass_preserve_plus (d : List (String × ℚ)) (k : String)
    (hk : hasPlusChar k = true) : dGet? (lossPass d) k = dGet? d k := by
  unfold lossPass
  refine dGet?_foldl_preserve _ k d (fun acc p _ => ?_) d
  by_cases hw : hasPlusChar p.1
  · rw [if_pos hw]
  · rw [if_neg hw]
    rw [dGet?_dUpdate_ne _ _ _ _ (hasPlusChar_lossKey (by simpa using hw) "-NH3" (by decide) k hk),
      dGet?_dUpdate_ne _ _ _ _ (hasPlusChar_lossKey (by simpa using hw) "-H2O" (by decide) k hk)]

theorem dGet?_lossPass_preserve_suffix (d : List (String × ℚ)) (k : String)
    (h1 : ∀ n : String, n ++ "-H2O" ≠ k) (h2 : ∀ n : String, n ++ "-NH3" ≠ k) :
    dGet? (lossPass d) k = dGet? d k := by
  unfold lossPass
  refine dGet?_foldl_preserve _ k d (fun acc p _ => ?_) d
  by_cases hw : hasPlusChar p.1
  · rw [if_pos hw]
  · rw [if_neg hw, dGet?_dUpdate_ne _ _ _ _ (h2 p.1), dGet?_dUpdate_ne _ _ _ _ (h1 p.1)]

theorem dGet?_lossPass_lookup (snapshot : List (String × ℚ)) (k : String) (m : ℚ)
    (hmem : (k, m) ∈ snapshot) (hplus : hasPlusChar k = false)
    (hnodup : (dKeys snapshot).Nodup) :
    ∀ d, dGet? (snapshot.foldl
        (fun acc p => if hasPlusChar p.1 then acc
          else dUpdate (dUpdate acc (p.1 ++ "-H2O") (p.2 - H2O)) (p.1 ++ "-NH3") (p.2 - NH3)) d)
        (k ++ "-H2O") = some (m - H2O) ∧
      dGet? (snapshot.foldl
        (fun acc p => if hasPlusChar p.1 then acc
          else dUpdate (dUpdate acc (p.1 ++ "-H2O") (p.2 - H2O)) (p.1 ++ "-NH3") (p.2 - NH3)) d)
        (k ++ "-NH3") = some (m - NH3) := by
  induction snapshot with
  | nil => cases hmem
  | cons p rest ih =>
    intro d
    obtain ⟨k', m'⟩ := p
    simp only [dKeys, List.map_cons, List.nodup_cons] at hnodup
    rw [List.foldl_cons]
    rcases List.mem_cons.mp hmem with heq | hmem'
    · obtain ⟨hk1, hm1⟩ : k = k' ∧ m = m' := by simpa using heq
      subst hk1
      subst hm1
      rw [if_neg (by simp [hplus])]
      constructor
      · rw [dGet?_foldl_preserve _ _ rest (fun acc p' hp' => ?_)]
        · rw [dGet?_dUpdate_ne _ _ _ _ (lossKey_cross_ne _ _), dGet?_dUpdate_self]
        · by_cases hw : hasPlusChar p'.1
          · rw [if_pos hw]
          · rw [if_neg hw,
              dGet?_dUpdate_ne _ _ _ _ (lossKey_cross_ne _ _),
              dGet?_dUpdate_ne _ _ _ _ (fun hcc => hnodup.1 (by
                have hd := congrArg String.data hcc
                rw [String.data_append, String.data_append] at hd
                have : p'.1 = k := string_data_inj (List.append_cancel_right hd)
                rw [← this]
                exact List.mem_map_of_mem (·.1) hp'))]
      · rw [dGet?_foldl_preserve _ _ rest (fun acc p' hp' => ?_)]
        · rw [dGet?_dUpdate_self]
        · by_cases hw : hasPlusChar p'.1
          · rw [if_pos hw]
          · rw [if_neg hw,
              dGet?_dUpdate_ne _ _ _ _ (fun hcc => hnodup.1 (by
                have hd := congrArg String.data hcc
                rw [String.data_append, String.data_append] at hd
                have : p'.1 = k := string_data_inj (List.append_cancel_right hd)
                rw [← this]
                exact List.mem_map_of_mem (·.1) hp')),
              dGet?_dUpdate_ne _ _ _ _ (fun hcc => (lossKey_cross_ne k p'.1) hcc.symm)]
    · exact ih hmem' hnodup.2 _

theorem dUpdate_append_left {α : Type} (l₁ l₂ : List (String × α)) (k : String) (v : α)
    (h : k ∉ dKeys l₁) : dUpdate (l₁ ++ l₂) k v = l₁ ++ dUpdate l₂ k v := by
  induction l₁ with
  | nil => rfl
  | cons p rest ih =>
    obtain ⟨k', v'⟩ := p
    simp only [dKeys, List.map_cons, List.mem_cons, not_or] at h
    simp only [List.cons_append, dUpdate]
    rw [if_neg (fun he : k' = k => h.1 he.symm), List.append_eq,
      ih (by simpa [dKeys] using h.2)]

theorem mem_of_endsWithH2O {k : String} (h : endsWithH2O k = true) : 'H' ∈ k.data := by
  unfold endsWithH2O at h
  rcases List.isSuffixOf_iff_suffix.mp h with ⟨t, ht⟩
  rw [← ht]
  exact List.mem_append_right _ (by decide)

theorem mem_of_endsWithNH3 {k : String} (h : endsWithNH3 k = true) : 'H' ∈ k.data := by
  unfold endsWithNH3 at h
  rcases List.isSuffixOf_iff_suffix.mp h with ⟨t, ht⟩
  rw [← ht]
  exact List.mem_append_right _ (by decide)

/-- Behaviour of the stub pipeline
`lossPass (charges.foldl chargeStep [(s1,m1),(s2,m2),(s3,m3)])` for three
distinct stub names that are free of `+`, of loss suffixes and of the
character `H` (as `α-A`, `α-T`, `α-S`, `β-A`, `β-T`, `β-S` all are). -/
theorem stub_pipeline_spec (s1 s2 s3 : String) (m1 m2 m3 : ℚ) (L : ℕ)
    (hd12 : s1 ≠ s2) (hd13 : s1 ≠ s3) (hd23 : s2 ≠ s3)
    (hu1 : (hasPlusChar s1 || endsWithH2O s1 || endsWithNH3 s1) = false)
    (hu2 : (hasPlusChar s2 || endsWithH2O s2 || endsWithNH3 s2) = false)
    (hu3 : (hasPlusChar s3 || endsWithH2O s3 || endsWithNH3 s3) = false)
    (hH1 : 'H' ∉ s1.data) (hH2 : 'H' ∉ s2.data) (hH3 : 'H' ∉ s3.data) :
    ((lossPass ((List.range' 1 L).foldl (fun d c => chargeStep c d)
        [(s1, m1), (s2, m2), (s3, m3)])).filter
      (fun p => !hasPlusChar p.1 && !endsWithH2O p.1 && !endsWithNH3 p.1)) =
        [(s1, m1), (s2, m2), (s3, m3)] ∧
    (∀ s m, (s = s1 ∧ m = m1) ∨ (s = s2 ∧ m = m2) ∨ (s = s3 ∧ m = m3) →
      dGet? (lossPass ((List.range' 1 L).foldl (fun d c => chargeStep c d)
        [(s1, m1), (s2, m2), (s3, m3)])) s = some m ∧
      (∀ c : ℕ, 1 ≤ c → c ≤ L →
        dGet? (lossPass ((List.range' 1 L).foldl (fun d c => chargeStep c d)
          [(s1, m1), (s2, m2), (s3, m3)])) (s ++ "+" ++ Nat.repr c) =
          some ((m + c * PROTON) / c)) ∧
      (∀ c : ℕ, L < c →
        dGet? (lossPass ((List.range' 1 L).foldl (fun d c => chargeStep c d)
          [(s1, m1), (s2, m2), (s3, m3)])) (s ++ "+" ++ Nat.repr c) = none) ∧
      dGet? (lossPass ((List.range' 1 L).foldl (fun d c => chargeStep c d)
        [(s1, m1), (s2, m2), (s3, m3)])) (s ++ "-H2O") = some (m - H2O) ∧
      dGet? (lossPass ((List.range' 1 L).foldl (fun d c => chargeStep c d)
        [(s1, m1), (s2, m2), (s3, m3)])) (s ++ "-NH3") = some (m - NH3)) ∧
    ((lossPass ((List.range' 1 L).foldl (fun d c => chargeStep c d)
        [(s1, m1), (s2, m2), (s3, m3)])).all
      (fun p => !(endsWithH2O p.1 || endsWithNH3 p.1) || !hasPlusChar p.1)) = true := by
  obtain ⟨hp1, hh1, hn1⟩ : hasPlusChar s1 = false ∧ endsWithH2O s1 = false ∧
      endsWithNH3 s1 = false := by
    revert hu1
    cases hasPlusChar s1 <;> cases endsWithH2O s1 <;> cases endsWithNH3 s1 <;> simp
  obtain ⟨hp2, hh2, hn2⟩ : hasPlusChar s2 = false ∧ endsWithH2O s2 = false ∧
      endsWithNH3 s2 = false := by
    revert hu2
    cases hasPlusChar s2 <;> cases endsWithH2O s2 <;> cases endsWithNH3 s2 <;> simp
  obtain ⟨hp3, hh3, hn3⟩ : hasPlusChar s3 = false ∧ endsWithH2O s3 = false ∧
      endsWithNH3 s3 = false := by
    revert hu3
    cases hasPlusChar s3 <;> cases endsWithH2O s3 <;> cases endsWithNH3 s3 <;> simp
  have hnodup_base : (dKeys [(s1, m1), (s2, m2), (s3, m3)]).Nodup := by
    simp [dKeys, hd12, hd13, hd23]
  have hnodup_DC : (dKeys ((List.range' 1 L).foldl (fun d c => chargeStep c d)
      [(s1, m1), (s2, m2), (s3, m3)])).Nodup :=
    foldl_induction (fun d : List (String × ℚ) => (dKeys d).Nodup) _ _
      (fun acc c _ hacc => nodup_dKeys_chargeStep c acc hacc) _ hnodup_base
  have hbase_get : ∀ s m, (s = s1 ∧ m = m1) ∨ (s = s2 ∧ m = m2) ∨ (s = s3 ∧ m = m3) →
      dGet? [(s1, m1), (s2, m2), (s3, m3)] s = some m := by
    rintro s m (⟨rfl, rfl⟩ | ⟨rfl, rfl⟩ | ⟨rfl, rfl⟩)
    · rw [dGet?_cons, if_pos rfl]
    · rw [dGet?_cons, if_neg hd12, dGet?_cons, if_pos rfl]
    · rw [dGet?_cons, if_neg hd13, dGet?_cons, if_neg hd23, dGet?_cons, if_pos rfl]
  have hplusfree : ∀ s, (s = s1 ∨ s = s2 ∨ s = s3) → hasPlusChar s = false := by
    rintro s (rfl | rfl | rfl)
    exacts [hp1, hp2, hp3]
  have hpres : ∀ k, hasPlusChar k = false →
      dGet? ((List.range' 1 L).foldl (fun d c => chargeStep c d)
        [(s1, m1), (s2, m2), (s3, m3)]) k = dGet? [(s1, m1), (s2, m2), (s3, m3)] k :=
    fun k hk => dGet?_foldl_preserve _ k _
      (fun acc c _ => dGet?_chargeStep_preserve c acc k
        (fun n => chargedKey_ne_of_noPlus hk n c)) _
  have hDC_get : ∀ s m, (s = s1 ∧ m = m1) ∨ (s = s2 ∧ m = m2) ∨ (s = s3 ∧ m = m3) →
      dGet? ((List.range' 1 L).foldl (fun d c => chargeStep c d)
        [(s1, m1), (s2, m2), (s3, m3)]) s = some m := by
    intro s m hs
    rw [hpres s (hplusfree s (by tauto))]
    exact hbase_get s m hs
  have hcharged : ∀ (n : String) (m : ℚ), hasPlusChar n = false →
      ∀ (cl : List ℕ) (d : List (String × ℚ)), cl.Pairwise (· < ·) → (dKeys d).Nodup →
      dGet? d n = some m → ∀ c ∈ cl,
      dGet? (cl.foldl (fun d c => chargeStep c d) d) (n ++ "+" ++ Nat.repr c) =
        some ((m + c * PROTON) / c) := by
    intro n m hn cl
    induction cl with
    | nil => intro d _ _ _ c hc; cases hc
    | cons c0 cs ih =>
      intro d hpair hnodup hget c hc
      rw [List.foldl_cons]
      rcases List.mem_cons.mp hc with rfl | hc'
      · rw [dGet?_foldl_preserve _ _ cs (fun acc c' hc' =>
          dGet?_chargeStep_preserve c' acc _ (fun n' he => by
            have hcc : c' = c := chargedKey_inj he
            subst hcc
            exact absurd (List.rel_of_pairwise_cons hpair hc')
              (lt_irrefl c')))]
        exact dGet?_chargeStep_lookup' c d n m (mem_of_dGet?_eq_some hget) hnodup
      · exact ih (chargeStep c0 d) (List.Pairwise.of_cons hpair)
          (nodup_dKeys_chargeStep _ _ hnodup)
          (by rw [dGet?_chargeStep_preserve _ _ _
            (fun n' => chargedKey_ne_of_noPlus hn n' c0)]; exact hget) c hc'
  refine ⟨?_, ?_, ?_⟩
  case refine_2 =>
    intro s m hs
    have hsor : s = s1 ∨ s = s2 ∨ s = s3 := by tauto
    have hsp : hasPlusChar s = false := hplusfree s hsor
    have hsh : endsWithH2O s = false := by rcases hsor with rfl | rfl | rfl; exacts [hh1, hh2, hh3]
    have hsn : endsWithNH3 s = false := by rcases hsor with rfl | rfl | rfl; exacts [hn1, hn2, hn3]
    refine ⟨?_, ?_, ?_, ?_, ?_⟩
    · rw [dGet?_lossPass_preserve_suffix _ _ (appendH2O_ne hsh) (appendNH3_ne hsn)]
      exact hDC_get s m hs
    · intro c h1 h2
      rw [dGet?_lossPass_preserve_plus _ _ (hasPlusChar_chargedKey s c)]
      exact hcharged s m hsp (List.range' 1 L) _ (List.pairwise_lt_range' 1 L)
        hnodup_base (hbase_get s m hs) c (List.mem_range'_1.mpr ⟨h1, by omega⟩)
    · intro c h2
      rw [dGet?_lossPass_preserve_plus _ _ (hasPlusChar_chargedKey s c)]
      rw [dGet?_foldl_preserve _ _ _ (fun acc c' hc' =>
        dGet?_chargeStep_preserve c' acc _ (fun n' he => by
          have hcc : c' = c := chargedKey_inj he
          subst hcc
          have := (List.mem_range'_1.mp hc').2
          omega))]
      have hne : ∀ t, (t = s1 ∨ t = s2 ∨ t = s3) → ¬(t = s ++ "+" ++ Nat.repr c) :=
        fun t ht he => chargedKey_ne_of_noPlus (hplusfree t ht) s c he.symm
      rw [dGet?_cons, if_neg (hne s1 (by tauto)), dGet?_cons, if_neg (hne s2 (by tauto)),
        dGet?_cons, if_neg (hne s3 (by tauto)), dGet?_nil]
    · exact (dGet?_lossPass_lookup _ s m
        (mem_of_dGet?_eq_some (hDC_get s m hs)) hsp hnodup_DC _).1
    · exact (dGet?_lossPass_lookup _ s m
        (mem_of_dGet?_eq_some (hDC_get s m hs)) hsp hnodup_DC _).2
  case refine_1 =>
    have hinv : ∃ r, lossPass ((List.range' 1 L).foldl (fun d c => chargeStep c d)
        [(s1, m1), (s2, m2), (s3, m3)]) = [(s1, m1), (s2, m2), (s3, m3)] ++ r ∧
        ∀ p ∈ r, (hasPlusChar p.1 || endsWithH2O p.1 || endsWithNH3 p.1) = true := by
      have hstep : ∀ (d : List (String × ℚ)) (k : String) (v : ℚ),
          (hasPlusChar k || endsWithH2O k || endsWithNH3 k) = true →
          (∃ r, d = [(s1, m1), (s2, m2), (s3, m3)] ++ r ∧
            ∀ p ∈ r, (hasPlusChar p.1 || endsWithH2O p.1 || endsWithNH3 p.1) = true) →
          ∃ r, dUpdate d k v = [(s1, m1), (s2, m2), (s3, m3)] ++ r ∧
            ∀ p ∈ r, (hasPlusChar p.1 || endsWithH2O p.1 || endsWithNH3 p.1) = true := by
        rintro d k v hk ⟨r, rfl, hr⟩
        have hknot : k ∉ dKeys [(s1, m1), (s2, m2), (s3, m3)] := by
          intro hmem
          rcases (by simpa [dKeys] using hmem : k = s1 ∨ k = s2 ∨ k = s3) with rfl | rfl | rfl
          · rw [hk] at hu1; exact Bool.noConfusion hu1
          · rw [hk] at hu2; exact Bool.noConfusion hu2
          · rw [hk] at hu3; exact Bool.noConfusion hu3
        rw [dUpdate_append_left _ _ _ _ hknot]
        refine ⟨dUpdate r k v, rfl, fun p hp => ?_⟩
        rcases mem_dUpdate hp with h | h
        · rw [h]; exact hk
        · exact hr p h
      have hinv0 : ∃ r, [(s1, m1), (s2, m2), (s3, m3)] =
          [(s1, m1), (s2, m2), (s3, m3)] ++ r ∧
          ∀ p ∈ r, (hasPlusChar p.1 || endsWithH2O p.1 || endsWithNH3 p.1) = true :=
        ⟨[], by simp, by simp⟩
      have hinvDC := foldl_induction (fun d : List (String × ℚ) =>
          ∃ r, d = [(s1, m1), (s2, m2), (s3, m3)] ++ r ∧
            ∀ p ∈ r, (hasPlusChar p.1 || endsWithH2O p.1 || endsWithNH3 p.1) = true)
        (fun d c => chargeStep c d) (List.range' 1 L)
        (fun acc c _ hacc => by
          unfold chargeStep
          exact foldl_induction _ _ acc
            (fun acc2 p _ hacc2 => hstep acc2 _ _
              (by rw [hasPlusChar_chargedKey]; rfl) hacc2) acc hacc)
        _ hinv0
      refine foldl_induction (fun d : List (String × ℚ) =>
          ∃ r, d = [(s1, m1), (s2, m2), (s3, m3)] ++ r ∧
            ∀ p ∈ r, (hasPlusChar p.1 || endsWithH2O p.1 || endsWithNH3 p.1) = true)
        _ _ (fun acc p _ hacc => ?_) _ hinvDC
      by_cases hw : hasPlusChar p.1
      · rwa [if_pos hw]
      · rw [if_neg hw]
        refine hstep _ _ _ (by rw [endsWithNH3_append]; simp) ?_
        exact hstep _ _ _ (by rw [endsWithH2O_append]; simp) hacc
    rcases hinv with ⟨r, hr, htag⟩
    rw [hr, List.filter_append,
      List.filter_cons_of_pos (by simp [hp1, hh1, hn1]),
      List.filter_cons_of_pos (by simp [hp2, hh2, hn2]),
      List.filter_cons_of_pos (by simp [hp3, hh3, hn3]),
      List.filter_nil, List.filter_eq_nil_iff.mpr (fun p hp => ?_), List.append_nil]
    have := htag p hp
    revert this
    cases hasPlusChar p.1 <;> cases endsWithH2O p.1 <;> cases endsWithNH3 p.1 <;> simp
  case refine_3 =>
    have hQH : ∀ p ∈ ((List.range' 1 L).foldl (fun d c => chargeStep c d)
        [(s1, m1), (s2, m2), (s3, m3)]), 'H' ∉ p.1.data := by
      refine foldl_induction (fun d : List (String × ℚ) => ∀ p ∈ d, 'H' ∉ p.1.data)
        _ _ (fun acc c _ hacc => ?_) _ ?_
      · unfold chargeStep
        refine foldl_induction (fun e : List (String × ℚ) => ∀ p ∈ e, 'H' ∉ p.1.data)
          _ acc (fun acc2 x hx hacc2 p hp => ?_) acc hacc
        rcases mem_dUpdate hp with h | h
        · rw [h]
          intro hmem
          rw [chargedKey_data] at hmem
          rcases List.mem_append.mp hmem with h2 | h2
          · exact hacc x hx h2
          · rcases List.mem_cons.mp h2 with h3 | h3
            · exact absurd h3 (by decide)
            · exact noH_repr c h3
        · exact hacc2 p h
      · intro p hp
        rcases (by simpa using hp :
            p = (s1, m1) ∨ p = (s2, m2) ∨ p = (s3, m3)) with rfl | rfl | rfl
        exacts [hH1, hH2, hH3]
    rw [List.all_eq_true]
    refine foldl_induction (fun d : List (String × ℚ) =>
        ∀ p ∈ d, (!(endsWithH2O p.1 || endsWithNH3 p.1) || !hasPlusChar p.1) = true)
      _ _ (fun acc p _ hacc => ?_) _ (fun p hp => ?_)
    · by_cases hw : hasPlusChar p.1
      · rwa [if_pos hw]
      · rw [if_neg hw]
        intro q hq
        rcases mem_dUpdate hq with h | h
        · rw [h]
          have : hasPlusChar (p.1 ++ "-NH3") = false :=
            hasPlusChar_append (by simpa using hw) (by decide)
          rw [this]
          simp
        · rcases mem_dUpdate h with h2 | h2
          · rw [h2]
            have : hasPlusChar (p.1 ++ "-H2O") = false :=
              hasPlusChar_append (by simpa using hw) (by decide)
            rw [this]
            simp
          · exact hacc q h2
    · have hH := hQH p hp
      have he1 : endsWithH2O p.1 = false := by
        rcases hb : endsWithH2O p.1 with _ | _
        · rfl
        · exact absurd (mem_of_endsWithH2O hb) hH
      have he2 : endsWithNH3 p.1 = false := by
        rcases hb : endsWithNH3 p.1 with _ | _
        · rfl
        · exact absurd (mem_of_endsWithNH3 hb) hH
      rw [he1, he2]
      simp

/-- C4: for every cleavable crosslinker and every pair of peptide neutral
masses, `generate_crosslink_fragments` gives each peptide exactly three
stub-modified neutral masses (the peptide mass plus the alkene, thiol and
sulfenic stub masses of the crosslinker, under the names `α-A`/`α-T`/`α-S`
and `β-A`/`β-T`/`β-S`), expands each across charges
`1..min(precursor_charge-1, 3)` (and no further charge states), and applies
the `-H2O`/`-NH3` neutral-loss variants exactly to the neutral (uncharged)
masses: every loss-tagged entry of the resulting tables has a plus-free name. -/
theorem generate_crosslink_fragments_cleavable (p1 p2 : ℚ) (xl : Crosslinker) (pc : ℕ)
    (hcl : xl.cleavable = true) :
    ((generate_crosslink_fragments p1 p2 xl pc true).peptide1.filter
        (fun p => !hasPlusChar p.1 && !endsWithH2O p.1 && !endsWithNH3 p.1) =
      [("α-A", p1 + dGetD xl.stub_masses "alkene" 0),
       ("α-T", p1 + dGetD xl.stub_masses "thiol" 0),
       ("α-S", p1 + dGetD xl.stub_masses "sulfenic" 0)] ∧
     (generate_crosslink_fragments p1 p2 xl pc true).peptide2.filter
        (fun p => !hasPlusChar p.1 && !endsWithH2O p.1 && !endsWithNH3 p.1) =
      [("β-A", p2 + dGetD xl.stub_masses "alkene" 0),
       ("β-T", p2 + dGetD xl.stub_masses "thiol" 0),
       ("β-S", p2 + dGetD xl.stub_masses "sulfenic" 0)]) ∧
    (∀ s m,
      (s = "α-A" ∧ m = p1 + dGetD xl.stub_masses "alkene" 0) ∨
      (s = "α-T" ∧ m = p1 + dGetD xl.stub_masses "thiol" 0) ∨
      (s = "α-S" ∧ m = p1 + dGetD xl.stub_masses "sulfenic" 0) →
      dGet? (generate_crosslink_fragments p1 p2 xl pc true).peptide1 s = some m ∧
      (∀ c : ℕ, 1 ≤ c → c ≤ min (pc - 1) 3 →
        dGet? (generate_crosslink_fragments p1 p2 xl pc true).peptide1
          (s ++ "+" ++ Nat.repr c) = some ((m + c * PROTON) / c)) ∧
      (∀ c : ℕ, min (pc - 1) 3 < c →
        dGet? (generate_crosslink_fragments p1 p2 xl pc true).peptide1
          (s ++ "+" ++ Nat.repr c) = none) ∧
      dGet? (generate_crosslink_fragments p1 p2 xl pc true).peptide1 (s ++ "-H2O") =
        some (m - H2O) ∧
      dGet? (generate_crosslink_fragments p1 p2 xl pc true).peptide1 (s ++ "-NH3") =
        some (m - NH3)) ∧
    (∀ s m,
      (s = "β-A" ∧ m = p2 + dGetD xl.stub_masses "alkene" 0) ∨
      (s = "β-T" ∧ m = p2 + dGetD xl.stub_masses "thiol" 0) ∨
      (s = "β-S" ∧ m = p2 + dGetD xl.stub_masses "sulfenic" 0) →
      dGet? (generate_crosslink_fragments p1 p2 xl pc true).peptide2 s = some m ∧
      (∀ c : ℕ, 1 ≤ c → c ≤ min (pc - 1) 3 →
        dGet? (generate_crosslink_fragments p1 p2 xl pc true).peptide2
          (s ++ "+" ++ Nat.repr c) = some ((m + c * PROTON) / c)) ∧
      (∀ c : ℕ, min (pc - 1) 3 < c →
        dGet? (generate_crosslink_fragments p1 p2 xl pc true).peptide2
          (s ++ "+" ++ Nat.repr c) = none) ∧
      dGet? (generate_crosslink_fragments p1 p2 xl pc true).peptide2 (s ++ "-H2O") =
        some (m - H2O) ∧
      dGet? (generate_crosslink_fragments p1 p2 xl pc true).peptide2 (s ++ "-NH3") =
        some (m - NH3)) ∧
    ((generate_crosslink_fragments p1 p2 xl pc true).peptide1.all
        (fun p => !(endsWithH2O p.1 || endsWithNH3 p.1) || !hasPlusChar p.1) = true ∧
     (generate_crosslink_fragments p1 p2 xl pc true).peptide2.all
        (fun p => !(endsWithH2O p.1 || endsWithNH3 p.1) || !hasPlusChar p.1) = true) := by
  have hL : min pc 4 - 1 = min (pc - 1) 3 := by omega
  obtain ⟨hfA, hlA, haA⟩ := stub_pipeline_spec "α-A" "α-T" "α-S"
    (p1 + dGetD xl.stub_masses "alkene" 0) (p1 + dGetD xl.stub_masses "thiol" 0)
    (p1 + dGetD xl.stub_masses "sulfenic" 0) (min pc 4 - 1)
    (by decide) (by decide) (by decide) (by decide) (by decide) (by decide)
    (by decide) (by decide) (by decide)
  obtain ⟨hfB, hlB, haB⟩ := stub_pipeline_spec "β-A" "β-T" "β-S"
    (p2 + dGetD xl.stub_masses "alkene" 0) (p2 + dGetD xl.stub_masses "thiol" 0)
    (p2 + dGetD xl.stub_masses "sulfenic" 0) (min pc 4 - 1)
    (by decide) (by decide) (by decide) (by decide) (by decide) (by decide)
    (by decide) (by decide) (by decide)
  have hpe1 : (generate_crosslink_fragments p1 p2 xl pc true).peptide1 =
      lossPass ((List.range' 1 (min pc 4 - 1)).foldl (fun d c => chargeStep c d)
        [("α-A", p1 + dGetD xl.stub_masses "alkene" 0),
         ("α-T", p1 + dGetD xl.stub_masses "thiol" 0),
         ("α-S", p1 + dGetD xl.stub_masses "sulfenic" 0)]) := by
    simp only [generate_crosslink_fragments, hcl]
    rfl
  have hpe2 : (generate_crosslink_fragments p1 p2 xl pc true).peptide2 =
      lossPass ((List.range' 1 (min pc 4 - 1)).foldl (fun d c => chargeStep c d)
        [("β-A", p2 + dGetD xl.stub_masses "alkene" 0),
         ("β-T", p2 + dGetD xl.stub_masses "thiol" 0),
         ("β-S", p2 + dGetD xl.stub_masses "sulfenic" 0)]) := by
    simp only [generate_crosslink_fragments, hcl]
    rfl
  rw [hpe1, hpe2, ← hL]
  exact ⟨⟨hfA, hfB⟩, hlA, hlB, haA, haB⟩

/-- C4 witness: for DSSO with peptide masses 1000 and 1200 and precursor
charge 4, the α-side table holds the alkene stub 1000 + 54.0106 and the
thiol stub 1000 + 85.9826, the alkene stub is charge-expanded up to 3+ but
not 4+, and its water-loss variant is present. -/
theorem generate_crosslink_fragments_cleavable_witness :
    DSSO.cleavable = true ∧
    dGet? (generate_crosslink_fragments 1000 1200 DSSO 4 true).peptide1 "α-A" =
      some (1000 + 54.0106) ∧
    dGet? (generate_crosslink_fragments 1000 1200 DSSO 4 true).peptide1 "α-T" =
      some (1000 + 85.9826) ∧
    dGet? (generate_crosslink_fragments 1000 1200 DSSO 4 true).peptide1 "α-A+3" =
      some ((1000 + 54.0106 + ((3 : ℕ) : ℚ) * PROTON) / ((3 : ℕ) : ℚ)) ∧
    dGet? (generate_crosslink_fragments 1000 1200 DSSO 4 true).peptide1 "α-A+4" = none ∧
    dGet? (generate_crosslink_fragments 1000 1200 DSSO 4 true).peptide1 "α-A-H2O" =
      some (1000 + 54.0106 - H2O) := by
  have h := generate_crosslink_fragments_cleavable 1000 1200 DSSO 4 rfl
  have hA := h.2.1 "α-A" (1000 + dGetD DSSO.stub_masses "alkene" 0) (Or.inl ⟨rfl, rfl⟩)
  have hT := h.2.1 "α-T" (1000 + dGetD DSSO.stub_masses "thiol" 0)
    (Or.inr (Or.inl ⟨rfl, rfl⟩))
  exact ⟨rfl, hA.1, hT.1, hA.2.1 3 (by decide) (by decide),
    hA.2.2.1 4 (by decide), hA.2.2.2.1⟩

end GlycoSpec
